import Mathlib

/-!
Verification development for the `jsonschema-gen` repository: a shallow
embedding of `src/jsonschema_gen/schema.py` (the schema-node data model and
its JSON serialization) and `src/jsonschema_gen/parsers.py` (the annotation
resolution engine), with theorems checking the natural-language specification
against the code.

Conventions of the embedding:
* Python values that can appear as defaults, enum members, literals and in
  serialized output are modelled by `PyVal`; the Python singletons `None` and
  `Ellipsis` are the constructors `PyVal.none` and `PyVal.ellipsis`.
* Fallible Python code (raising exceptions) is modelled with
  `Except String`, the string holding the exception message.
* Recursion through the resolution engine is fuel-indexed (`Nat` argument);
  running out of fuel models exhausting the interpreter's recursion limit.
-/

namespace JsonschemaGen

/-- A JSON-compatible Python value: the universe of dataclass field values,
defaults, literals and serialized output. `none` models Python `None`,
`ellipsis` models the `...` (Ellipsis) unset-default sentinel. -/
inductive PyVal where
  | none
  | ellipsis
  | bool (b : Bool)
  | int (n : Int)
  | str (s : String)
  | list (xs : List PyVal)
  | dict (xs : List (String × PyVal))
  deriving Repr

/-- Python's `str.startswith`, stated over character lists so that the
kernel can evaluate it. -/
def pyStartsWith (s pre : String) : Bool := pre.data.isPrefixOf s.data

/-! ### schema.py: generic serialization

`_serialize_schema_value` / `_serialize_schema_keys` (schema.py lines 58-73):
a Mapping has its keys filtered (drop keys starting with `_` and values that
are `None` or `Ellipsis`) and its values serialized recursively; a list or
tuple is serialized elementwise; any other plain value passes through
unchanged.  (The `hasattr(value, "json_repr")` branch never applies to plain
`PyVal` data; nested schema nodes are serialized by `Schema.jsonRepr`
below, which inlines that branch at each node-valued field.) -/

mutual

def serializeVal : PyVal → PyVal
  | .dict xs => .dict (serializeEntries xs)
  | .list xs => .list (serializeList xs)
  | v => v

def serializeList : List PyVal → List PyVal
  | [] => []
  | v :: vs => serializeVal v :: serializeList vs

def serializeEntries : List (String × PyVal) → List (String × PyVal)
  | [] => []
  | (k, v) :: kvs =>
    if pyStartsWith k "_" then serializeEntries kvs
    else
      match v with
      | .none => serializeEntries kvs
      | .ellipsis => serializeEntries kvs
      | _ => (k, serializeVal v) :: serializeEntries kvs

end

/-! ### schema.py: the schema node variants

One constructor per dataclass in `schema.py`, fields in declaration order.
Fields typed `str = None` in the source become `Option String`; fields typed
`bool = None` become `Option Bool`; integer constraints become `Option Int`;
fields holding arbitrary Python data (`examples`, `enum`, numeric constraints
of Number, and the three-state `default: Any = ...`) are plain `PyVal`
(with `PyVal.none` for the Python default `None` and `PyVal.ellipsis` for the
`...` sentinel).  Nested schema nodes are `Option Schema`, node lists
`Option (List Schema)`, node maps `Option (List (String × Schema))`
(insertion-ordered, as Python dicts are).

The combinator classes `AnyOf`/`OneOf`/`AllOf`/`Not`/`Nullable` declare no
`title` or `default` dataclass field, but Python still allows assigning those
attributes after construction (the engine's `annotation.default = default`
and `arg.title = title` do exactly that); their custom `json_repr` never
reads them.  They are modelled as the trailing `dynDefault`/`dynTitle`
fields, ignored by `jsonRepr`.  `Const` has no declared `default` field
either, but an assigned `default` attribute lands in `vars(self)` *after*
the declared fields and is serialized by the default `json_repr`; it is the
trailing `default` field of `constS`. -/

inductive Schema where
  /-- Model of `JSONSchemaObject(title, description, examples, default)` -/
  | jso (title description : Option String) (examples default : PyVal)
  /-- Model of `Enum(enum, title, description, examples, default)` -/
  | enumS (enum : PyVal) (title description : Option String) (examples default : PyVal)
  /-- Model of `Const(const, title, description)` (+ dynamically assigned default) -/
  | constS (const : PyVal) (title description : Option String) (default : PyVal)
  /-- Model of `Boolean(title, description, default)` -/
  | booleanS (title description : Option String) (default : PyVal)
  /-- Model of `String(minLength, maxLength, pattern, format, title, description, examples, enum, default)` -/
  | stringS (minLength maxLength : Option Int) (pattern format title description : Option String)
      (examples enum default : PyVal)
  /-- Model of `Number(multipleOf, minimum, maximum, exclusiveMinimum, exclusiveMaximum, title, description, examples, enum, default)` -/
  | numberS (multipleOf minimum maximum exclusiveMinimum exclusiveMaximum : PyVal)
      (title description : Option String) (examples enum default : PyVal)
  /-- Model of `Integer(...)`: same field list as Number -/
  | integerS (multipleOf minimum maximum exclusiveMinimum exclusiveMaximum : PyVal)
      (title description : Option String) (examples enum default : PyVal)
  /-- Model of `Array(items, prefixItems, contains, additionalItems, uniqueItems, minItems, maxItems, title, description, examples, enum, default)` -/
  | arrayS (items : Option Schema) (prefixItems : Option (List Schema)) (contains : Option Schema)
      (additionalItems uniqueItems : Option Bool) (minItems maxItems : Option Int)
      (title description : Option String) (examples enum default : PyVal)
  /-- Model of `Object(properties, patternProperties, additionalProperties, minProperties, maxProperties, required, title, description, examples, enum, default)` -/
  | objectS (properties patternProperties : Option (List (String × Schema)))
      (additionalProperties : Option Bool) (minProperties maxProperties : Option Int)
      (required : Option (List String)) (title description : Option String)
      (examples enum default : PyVal)
  /-- Model of `AnyOf(items)` -/
  | anyOfS (items : List Schema) (dynTitle : Option String) (dynDefault : PyVal)
  /-- Model of `OneOf(items)` -/
  | oneOfS (items : List Schema) (dynTitle : Option String) (dynDefault : PyVal)
  /-- Model of `AllOf(items)` -/
  | allOfS (items : List Schema) (dynTitle : Option String) (dynDefault : PyVal)
  /-- Model of `Not(item)` -/
  | notS (item : Schema) (dynTitle : Option String) (dynDefault : PyVal)
  /-- Model of `Nullable(item)` -/
  | nullableS (item : Schema) (dynTitle : Option String) (dynDefault : PyVal)
  deriving Repr

/-! Field-serialization helpers, one per field typing.  Each models one kept
or dropped entry of `_serialize_schema_keys`: an entry is dropped when its
raw Python value is `None` or `...` (for `Option`-typed fields, `Option.none`
is the Python `None`). -/

/-- A `str = None` field: kept when set. -/
def strF (k : String) : Option String → List (String × PyVal)
  | Option.none => []
  | some s => [(k, .str s)]

/-- A `bool = None` field: kept when set. -/
def boolF (k : String) : Option Bool → List (String × PyVal)
  | Option.none => []
  | some b => [(k, .bool b)]

/-- An `int = None` constraint field: kept when set. -/
def intF (k : String) : Option Int → List (String × PyVal)
  | Option.none => []
  | some n => [(k, .int n)]

/-- A `List[str] = None` field (`required`): kept when set (even if empty). -/
def strsF (k : String) : Option (List String) → List (String × PyVal)
  | Option.none => []
  | some l => [(k, .list (l.map .str))]

/-- A plain-Python-valued field (`default`, `enum`, `examples`, numeric
constraints of Number): dropped when `None` or `...`, else serialized by
`_serialize_schema_value`. -/
def rawF (k : String) : PyVal → List (String × PyVal)
  | .none => []
  | .ellipsis => []
  | v => [(k, serializeVal v)]

/-! The `json_repr` of every node (schema.py): the default protocol
implementation is `_serialize_schema_keys(vars(self))`; the concrete types
append their `type` discriminator; the combinators build their map
directly. -/

/-- An optional nested node field: `None` is dropped, a node is serialized
by its `json_repr` (the `hasattr(value, "json_repr")` branch of
`_serialize_schema_value`). -/
def nodeF (k : String) : Option PyVal → List (String × PyVal)
  | Option.none => []
  | some v => [(k, v)]

mutual

def Schema.jsonRepr : Schema → PyVal
  | .jso title description examples default =>
      .dict (strF "title" title ++ strF "description" description ++
        rawF "examples" examples ++ rawF "default" default)
  | .enumS enum title description examples default =>
      .dict (rawF "enum" enum ++ strF "title" title ++ strF "description" description ++
        rawF "examples" examples ++ rawF "default" default)
  | .constS const title description default =>
      .dict (rawF "const" const ++ strF "title" title ++ strF "description" description ++
        rawF "default" default)
  | .booleanS title description default =>
      .dict (strF "title" title ++ strF "description" description ++
        rawF "default" default ++ [("type", .str "boolean")])
  | .stringS minLength maxLength pattern format title description examples enum default =>
      .dict (intF "minLength" minLength ++ intF "maxLength" maxLength ++
        strF "pattern" pattern ++ strF "format" format ++ strF "title" title ++
        strF "description" description ++ rawF "examples" examples ++
        rawF "enum" enum ++ rawF "default" default ++ [("type", .str "string")])
  | .numberS multipleOf minimum maximum exclusiveMinimum exclusiveMaximum title description examples enum default =>
      .dict (rawF "multipleOf" multipleOf ++ rawF "minimum" minimum ++
        rawF "maximum" maximum ++ rawF "exclusiveMinimum" exclusiveMinimum ++
        rawF "exclusiveMaximum" exclusiveMaximum ++ strF "title" title ++
        strF "description" description ++ rawF "examples" examples ++
        rawF "enum" enum ++ rawF "default" default ++ [("type", .str "number")])
  | .integerS multipleOf minimum maximum exclusiveMinimum exclusiveMaximum title description examples enum default =>
      .dict (rawF "multipleOf" multipleOf ++ rawF "minimum" minimum ++
        rawF "maximum" maximum ++ rawF "exclusiveMinimum" exclusiveMinimum ++
        rawF "exclusiveMaximum" exclusiveMaximum ++ strF "title" title ++
        strF "description" description ++ rawF "examples" examples ++
        rawF "enum" enum ++ rawF "default" default ++ [("type", .str "integer")])
  | .arrayS items prefixItems contains additionalItems uniqueItems minItems maxItems title description examples enum default =>
      .dict (nodeF "items" (jsonReprOpt items) ++
        nodeF "prefixItems" (jsonReprOptList prefixItems) ++
        nodeF "contains" (jsonReprOpt contains) ++
        boolF "additionalItems" additionalItems ++ boolF "uniqueItems" uniqueItems ++
        intF "minItems" minItems ++ intF "maxItems" maxItems ++ strF "title" title ++
        strF "description" description ++ rawF "examples" examples ++
        rawF "enum" enum ++ rawF "default" default ++ [("type", .str "array")])
  | .objectS properties patternProperties additionalProperties minProperties maxProperties required title description examples enum default =>
      .dict (nodeF "properties" (jsonReprOptMap properties) ++
        nodeF "patternProperties" (jsonReprOptMap patternProperties) ++
        boolF "additionalProperties" additionalProperties ++
        intF "minProperties" minProperties ++ intF "maxProperties" maxProperties ++
        strsF "required" required ++ strF "title" title ++
        strF "description" description ++ rawF "examples" examples ++
        rawF "enum" enum ++ rawF "default" default ++ [("type", .str "object")])
  | .anyOfS items _ _ => .dict [("anyOf", .list (jsonReprList items))]
  | .oneOfS items _ _ => .dict [("oneOf", .list (jsonReprList items))]
  | .allOfS items _ _ => .dict [("allOf", .list (jsonReprList items))]
  | .notS item _ _ => .dict [("not", Schema.jsonRepr item)]
  | .nullableS item _ _ =>
      -- Nullable.json_repr: oneOf of the item and Null().json_repr()
      .dict [("oneOf", .list [Schema.jsonRepr item, .dict [("enum", .list [.none])]])]

def jsonReprOpt : Option Schema → Option PyVal
  | Option.none => Option.none
  | some s => some (Schema.jsonRepr s)

def jsonReprOptList : Option (List Schema) → Option PyVal
  | Option.none => Option.none
  | some l => some (.list (jsonReprList l))

def jsonReprOptMap : Option (List (String × Schema)) → Option PyVal
  | Option.none => Option.none
  | some m => some (.dict (jsonReprMap m))

def jsonReprList : List Schema → List PyVal
  | [] => []
  | s :: ss => Schema.jsonRepr s :: jsonReprList ss

def jsonReprMap : List (String × Schema) → List (String × PyVal)
  | [] => []
  | (k, s) :: ss =>
    -- node maps are Mappings, so `_serialize_schema_keys` filters them too
    if pyStartsWith k "_" then jsonReprMap ss
    else (k, Schema.jsonRepr s) :: jsonReprMap ss

end

/-! ### Field access and post-construction attribute assignment

The engine mutates nodes after construction (`annotation.default = default`
at parsers.py line 166, `arg.title = title` in TypeVarParser/NewTypeParser,
`annotation.uniqueItems = True` in SetParser).  Python attribute assignment
always succeeds; on the combinator classes (no such declared field) it lands
in the `dynDefault`/`dynTitle` slots, which `json_repr` ignores. -/

def Schema.setDefault : Schema → PyVal → Schema
  | .jso t d e _, v => .jso t d e v
  | .enumS en t d e _, v => .enumS en t d e v
  | .constS c t d _, v => .constS c t d v
  | .booleanS t d _, v => .booleanS t d v
  | .stringS a b p f t d e en _, v => .stringS a b p f t d e en v
  | .numberS m mi ma emi ema t d e en _, v => .numberS m mi ma emi ema t d e en v
  | .integerS m mi ma emi ema t d e en _, v => .integerS m mi ma emi ema t d e en v
  | .arrayS i pi c ai ui mi ma t d e en _, v => .arrayS i pi c ai ui mi ma t d e en v
  | .objectS p pp ap mi ma r t d e en _, v => .objectS p pp ap mi ma r t d e en v
  | .anyOfS i dt _, v => .anyOfS i dt v
  | .oneOfS i dt _, v => .oneOfS i dt v
  | .allOfS i dt _, v => .allOfS i dt v
  | .notS i dt _, v => .notS i dt v
  | .nullableS i dt _, v => .nullableS i dt v

def Schema.getDefault : Schema → PyVal
  | .jso _ _ _ v => v
  | .enumS _ _ _ _ v => v
  | .constS _ _ _ v => v
  | .booleanS _ _ v => v
  | .stringS _ _ _ _ _ _ _ _ v => v
  | .numberS _ _ _ _ _ _ _ _ _ v => v
  | .integerS _ _ _ _ _ _ _ _ _ v => v
  | .arrayS _ _ _ _ _ _ _ _ _ _ _ v => v
  | .objectS _ _ _ _ _ _ _ _ _ _ v => v
  | .anyOfS _ _ v => v
  | .oneOfS _ _ v => v
  | .allOfS _ _ v => v
  | .notS _ _ v => v
  | .nullableS _ _ v => v

def Schema.setTitle : Schema → Option String → Schema
  | .jso _ d e v, t => .jso t d e v
  | .enumS en _ d e v, t => .enumS en t d e v
  | .constS c _ d v, t => .constS c t d v
  | .booleanS _ d v, t => .booleanS t d v
  | .stringS a b p f _ d e en v, t => .stringS a b p f t d e en v
  | .numberS m mi ma emi ema _ d e en v, t => .numberS m mi ma emi ema t d e en v
  | .integerS m mi ma emi ema _ d e en v, t => .integerS m mi ma emi ema t d e en v
  | .arrayS i pi c ai ui mi ma _ d e en v, t => .arrayS i pi c ai ui mi ma t d e en v
  | .objectS p pp ap mi ma r _ d e en v, t => .objectS p pp ap mi ma r t d e en v
  | .anyOfS i _ v, t => .anyOfS i t v
  | .oneOfS i _ v, t => .oneOfS i t v
  | .allOfS i _ v, t => .allOfS i t v
  | .notS i _ v, t => .notS i t v
  | .nullableS i _ v, t => .nullableS i t v

/-- The `format` field, present only on String nodes (and its aliases). -/
def Schema.getFormat : Schema → Option String
  | .stringS _ _ _ f _ _ _ _ _ => f
  | _ => Option.none

/-- SetParser's `annotation.uniqueItems = True`: meaningful on the Array
node its superclass builder returns. -/
def Schema.setUniq : Schema → Schema
  | .arrayS i pi c ai _ mi ma t d e en v => .arrayS i pi c ai (some true) mi ma t d e en v
  | s => s

/-! ### parsers.py: type descriptors

`BaseTy` enumerates the plain Python classes / singletons that occur in the
`types` tuples of the registered parsers.  `Desc` is the descriptor universe
the engine is modelled over: plain base types, parameterized generic aliases
(carrying their `__origin__` class and optional `__args__`), unions,
`Literal[...]` forms, TypeVars, NewTypes, Enum classes and Enum members,
forward references, the `...` (Ellipsis) marker usable as a type argument,
and `inspect._empty` (a missing annotation).  TypedDicts, NamedTuples and
dataclasses are absent from this universe, so the predicates of
`TypedDictParser`, `NamedTupleParser` and `DataclassParser` are `false` on
every modelled descriptor (their builders are unreachable here). -/

inductive BaseTy where
  | anyT | strT | bytesT | anyStrT
  | uuidT | safeUuidT | dateT | datetimeT
  | intT | floatT | decimalT | numberT | boolT
  | noneV | noneTypeT
  | listT | collectionT | iterableT
  | setT | frozensetT | abcSetT | mutableSetT
  | tupleT | dictT | mappingT | mutableMappingT
  deriving Repr, DecidableEq

inductive Desc where
  | base (b : BaseTy)
  /-- A generic alias: `__origin__` is the base class, `__args__` the
  optional type-argument tuple (absent on bare aliases such as `t.List`). -/
  | generic (origin : BaseTy) (args : Option (List Desc))
  | unionD (args : List Desc)
  | literalD (vals : List PyVal)
  | typeVarD (name : String) (bound : Option Desc)
  | newTypeD (name : String) (supertype : Desc)
  | enumTypeD (name : String) (doc : Option String) (members : List (String × PyVal))
  | enumValueD (clsName memberName : String) (value : PyVal)
  | forwardRefD (name : String)
  | ellipsisD
  | emptyD
  deriving Repr

/-- The result of `get_origin` (utils.py): `__origin__` when present.
Union and Literal aliases have non-class origins (`typing.Union`,
`typing.Literal`), distinguished so that membership in a `types` tuple of
classes is `false` for them. -/
inductive OriginTy where
  | baseO (b : BaseTy)
  | unionO
  | literalO
  deriving Repr, DecidableEq

def Desc.getOrigin : Desc → Option OriginTy
  | .generic o _ => some (.baseO o)
  | .unionD _ => some .unionO
  | .literalD _ => some .literalO
  | _ => Option.none

/-- `get_args` (utils.py): the `__args__` attribute when present.  (On a
`Literal` alias `__args__` holds plain values, not types; no registered
parser ever reads it, so it is not modelled.) -/
def Desc.getArgs : Desc → Option (List Desc)
  | .generic _ a => a
  | .unionD l => some l
  | _ => Option.none

/-- Rendering of `str(annotation)`, used in error messages and fallback
titles.  Approximates CPython's rendering; the theorems only rely on it
mentioning the descriptor, not on its exact shape. -/
def BaseTy.pyStr : BaseTy → String
  | .anyT => "typing.Any"
  | .strT => "<class str>"
  | .bytesT => "<class bytes>"
  | .anyStrT => "~AnyStr"
  | .uuidT => "<class uuid.UUID>"
  | .safeUuidT => "<enum SafeUUID>"
  | .dateT => "<class datetime.date>"
  | .datetimeT => "<class datetime.datetime>"
  | .intT => "<class int>"
  | .floatT => "<class float>"
  | .decimalT => "<class decimal.Decimal>"
  | .numberT => "<class numbers.Number>"
  | .boolT => "<class bool>"
  | .noneV => "None"
  | .noneTypeT => "<class NoneType>"
  | .listT => "typing.List"
  | .collectionT => "typing.Collection"
  | .iterableT => "typing.Iterable"
  | .setT => "typing.Set"
  | .frozensetT => "typing.FrozenSet"
  | .abcSetT => "typing.AbstractSet"
  | .mutableSetT => "typing.MutableSet"
  | .tupleT => "typing.Tuple"
  | .dictT => "typing.Dict"
  | .mappingT => "typing.Mapping"
  | .mutableMappingT => "typing.MutableMapping"

mutual

def strOf : Desc → String
  | .base b => b.pyStr
  | .generic o a =>
    match a with
    | Option.none => o.pyStr
    | some l => o.pyStr ++ "[" ++ strOfList l ++ "]"
  | .unionD l => "typing.Union[" ++ strOfList l ++ "]"
  | .literalD _ => "typing.Literal[...]"
  | .typeVarD n _ => "~" ++ n
  | .newTypeD n _ => n
  | .enumTypeD n _ _ => "<enum " ++ n ++ ">"
  | .enumValueD c m _ => c ++ "." ++ m
  | .forwardRefD n => "ForwardRef(" ++ n ++ ")"
  | .ellipsisD => "Ellipsis"
  | .emptyD => "<class inspect._empty>"

def strOfList : List Desc → String
  | [] => ""
  | [d] => strOf d
  | d :: rest => strOf d ++ ", " ++ strOfList rest

end

/-! ### parsers.py: the registry -/

/-- One tag per registered `TypeParser` subclass. -/
inductive PTy where
  | anyP | stringP | uuidP | dateP | dateTimeP | integerP | numberP | booleanP | nullP
  | typeVarP | newTypeP | constantP | unionP | listP | setP | tupleP | dictP
  | typedDictP | namedTupleP | enumValueP | enumTypeP | dataclassP
  deriving Repr, DecidableEq

/-- The default registry (parsers.py lines 479-481): every `TypeParser`
subclass in the module, in class-definition order. -/
def TYPES : List PTy :=
  [.anyP, .stringP, .uuidP, .dateP, .dateTimeP, .integerP, .numberP, .booleanP, .nullP,
   .typeVarP, .newTypeP, .constantP, .unionP, .listP, .setP, .tupleP, .dictP,
   .typedDictP, .namedTupleP, .enumValueP, .enumTypeP, .dataclassP]

/-- The `strict` class attribute: `True` by default, overridden to `False`
by UUIDParser, DateParser, DateTimeParser, NamedTupleParser, EnumValueParser,
EnumTypeParser and DataclassParser. -/
def strictOf : PTy → Bool
  | .uuidP | .dateP | .dateTimeP | .namedTupleP | .enumValueP | .enumTypeP | .dataclassP => false
  | _ => true

/-- The `types` tuple of the parsers using the default `can_parse`. -/
def typesOf : PTy → List BaseTy
  | .anyP => [.anyT]
  | .stringP => [.strT, .bytesT, .anyStrT]
  | .uuidP => [.uuidT, .safeUuidT]
  | .dateP => [.dateT]
  | .dateTimeP => [.datetimeT]
  | .integerP => [.intT]
  | .numberP => [.floatT, .decimalT, .numberT]
  | .booleanP => [.boolT]
  | .nullP => [.noneV, .noneTypeT]
  | .listP => [.listT, .collectionT, .iterableT]
  | .setP => [.setT, .frozensetT, .abcSetT, .mutableSetT]
  | .tupleP => [.tupleT]
  | .dictP => [.dictT, .mappingT, .mutableMappingT]
  | _ => []

/-- The default `TypeParser.can_parse` (parsers.py lines 188-190):
`origin in self.types if origin else annotation in self.types`. -/
def canParseDefault (tys : List BaseTy) (d : Desc) : Bool :=
  match d.getOrigin with
  | some (.baseO b) => tys.contains b
  | some _ => false
  | Option.none =>
    match d with
    | .base b => tys.contains b
    | _ => false

/-- Each parser's `can_parse` predicate. -/
def canParse : PTy → Desc → Bool
  | .typeVarP, d =>
    -- isinstance(annotation, t.TypeVar)
    match d with
    | .typeVarD _ _ => true
    | _ => false
  | .newTypeP, d =>
    -- isinstance(annotation, t.NewType)
    match d with
    | .newTypeD _ _ => true
    | _ => false
  | .constantP, d =>
    -- getattr(annotation, "__origin__", None) is t.Literal
    d.getOrigin = some .literalO
  | .unionP, d =>
    -- is_union(annotation)
    match d with
    | .unionD _ => true
    | _ => false
  | .enumValueP, d =>
    -- isinstance(annotation, Enum)
    match d with
    | .enumValueD _ _ _ => true
    | _ => false
  | .enumTypeP, d =>
    -- inspect.isclass(annotation) and issubclass(annotation, Enum)
    match d with
    | .enumTypeD _ _ _ => true
    | _ => false
  | .typedDictP, _ => false
  | .namedTupleP, _ => false
  | .dataclassP, _ => false
  | p, d => canParseDefault (typesOf p) d

/-- Strict-mode eligibility of a parser for a descriptor
(parsers.py lines 159-162): the predicate matches and, in strict mode,
the parser is strict-eligible. -/
def eligible (strict : Bool) (p : PTy) (d : Desc) : Bool :=
  canParse p d && (!strict || strictOf p)

/-- The engine configuration (`Parser.__init__`). -/
structure Cfg where
  strict : Bool
  privArgPre : String
  locals : List (String × Desc)

def lookupLocal : List (String × Desc) → String → Option Desc
  | [], _ => Option.none
  | (k, v) :: rest, n => if k = n then some v else lookupLocal rest n

/-- Fallback title (parsers.py line 173):
`None if annotation == inspect._empty else str(annotation)`. -/
def fallbackTitle : Desc → Option String
  | .emptyD => Option.none
  | d => some (strOf d)

/-- The forward-reference substitution step at the head of
`parse_annotation` (parsers.py lines 155-156):
`annotation = self.locals.get(annotation.__forward_arg__, t.Any)`. -/
def substFwd (cfg : Cfg) : Desc → Desc
  | .forwardRefD n => (lookupLocal cfg.locals n).getD (.base .anyT)
  | d => d

/-- The `IncompatibleTypesError` message of the strict no-match branch
(parsers.py lines 170-171). -/
def strictNoMatchMsg (d : Desc) : String :=
  "Unable to parse annotation of type " ++ strOf d ++ " as jsonschema type in strict mode"

/-- The `IncompatibleTypesError` message of DictParser (parsers.py 363). -/
def dictKeyMsg (k : Desc) : String :=
  "Dictionary keys must be strings, got " ++ strOf k

/-- ListParser flattening (parsers.py lines 323-329): an argument node that
is exactly an `AnyOf` contributes its members; everything else itself. -/
def flattenAnyOf : List Schema → List Schema
  | [] => []
  | .anyOfS ms _ _ :: rest => ms ++ flattenAnyOf rest
  | s :: rest => s :: flattenAnyOf rest

/-- `Object(patternProperties=props)` as built by DictParser. -/
def dictObject (props : Option (List (String × Schema))) : Schema :=
  .objectS Option.none props Option.none Option.none Option.none Option.none
    Option.none Option.none .none .none .ellipsis

/-- A bare `Array()` node. -/
def bareArray : Schema :=
  .arrayS Option.none Option.none Option.none Option.none Option.none Option.none
    Option.none Option.none Option.none .none .none .ellipsis

/-- `Array(items=a)` as built by ListParser. -/
def arrayWithItems (a : Schema) : Schema :=
  .arrayS (some a) Option.none Option.none Option.none Option.none Option.none
    Option.none Option.none Option.none .none .none .ellipsis

/-- `Array(prefixItems=l)` as built by TupleParser. -/
def arrayWithPre (l : List Schema) : Schema :=
  .arrayS Option.none (some l) Option.none Option.none Option.none Option.none
    Option.none Option.none Option.none .none .none .ellipsis

/-- The node built by `self.annotation(**{})` for each simple parser:
the default-constructed dataclass of its `annotation` class attribute
(with fixed formats applied by the alias classes' `__post_init__`). -/
def simpleNode : PTy → Schema
  | .anyP => .jso Option.none Option.none .none .ellipsis
  | .stringP => .stringS Option.none Option.none Option.none Option.none Option.none
      Option.none .none .none .ellipsis
  | .uuidP => .stringS Option.none Option.none Option.none (some "uuid") Option.none
      Option.none .none .none .ellipsis
  | .dateP => .stringS Option.none Option.none Option.none (some "date") Option.none
      Option.none .none .none .ellipsis
  | .dateTimeP => .stringS Option.none Option.none Option.none (some "date-time") Option.none
      Option.none .none .none .ellipsis
  | .integerP => .integerS .none .none .none .none .none Option.none Option.none
      .none .none .ellipsis
  | .numberP => .numberS .none .none .none .none .none Option.none Option.none
      .none .none .ellipsis
  | .booleanP => .booleanS Option.none Option.none .ellipsis
  | .nullP => .enumS (.list [.none]) Option.none Option.none .none .ellipsis
  | _ => .jso Option.none Option.none .none .ellipsis

/-! ### parsers.py: the resolution engine

`parseAnn fuel cfg d default` models `Parser.parse_annotation(d, default)`
with `fuel` bounding the recursion depth (running out models the
interpreter's RecursionError).  `parseLoop` is the `for parser in
self._types` loop plus the no-match tail; `buildP` is the matched parser's
`parse_annotation`; `parseArgs` is `TypeParser.parse_args`. -/

/-- `TypeParser.parse_args` (parsers.py lines 196-200), parameterized by
the engine's recursive resolution call `parse` (one recursion level deeper):
every non-Ellipsis argument is resolved with no default supplied. -/
def parseArgsH (parse : Desc → PyVal → Except String Schema) :
    List Desc → Except String (List Schema)
  | [] => .ok []
  | a :: rest =>
    match a with
    | .ellipsisD => parseArgsH parse rest
    | _ =>
      match parse a .ellipsis with
      | .error e => .error e
      | .ok s =>
        match parseArgsH parse rest with
        | .error e => .error e
        | .ok ss => .ok (s :: ss)

/-- `ListParser.parse_annotation` (parsers.py lines 319-330). -/
def buildListH (parse : Desc → PyVal → Except String Schema) (d : Desc) :
    Except String Schema :=
  match d.getArgs with
  | Option.none => .ok bareArray
  | some argsL =>
    match parseArgsH parse argsL with
    | .error e => .error e
    | .ok ss =>
      match flattenAnyOf ss with
      | [] => .error "IndexError: list index out of range"
      | a :: _ => .ok (arrayWithItems a)

/-- `Dict[k, v]` key-type admissibility in strict mode (parsers.py line
362): `annotation.__args__[0] not in (t.AnyStr, str, bytes)` raises. -/
def strKeyOk : Desc → Bool
  | .base .anyStrT => true
  | .base .strT => true
  | .base .bytesT => true
  | _ => false

/-- The matched parser's `parse_annotation` (its builder), parameterized by
the engine's recursive resolution call. -/
def buildPH (parse : Desc → PyVal → Except String Schema) (cfg : Cfg)
    (p : PTy) (d : Desc) : Except String Schema :=
  match p, d with
  | .typeVarP, .typeVarD nm bd =>
    -- TypeVarParser.parse_annotation
    (match bd with
      | some b =>
        match parse b .ellipsis with
        | .error e => .error e
        | .ok s => .ok (s.setTitle (some nm))
      | Option.none => .ok (Schema.setTitle (.jso Option.none Option.none .none .ellipsis) (some nm)))
  | .typeVarP, _ => .error "TypeError"
  | .newTypeP, .newTypeD nm sup =>
    -- NewTypeParser.parse_annotation
    (match parse sup .ellipsis with
      | .error e => .error e
      | .ok s => .ok (s.setTitle (some nm)))
  | .newTypeP, _ => .error "TypeError"
  | .constantP, .literalD vals =>
    -- ConstantParser.parse_annotation: j.Enum(enum=list(annotation.__args__))
    .ok (.enumS (.list vals) Option.none Option.none .none .ellipsis)
  | .constantP, _ => .error "TypeError"
  | .unionP, .unionD argsL =>
    -- UnionParser.parse_annotation: j.AnyOf(list(self.parse_args(args)))
    (match parseArgsH parse argsL with
      | .error e => .error e
      | .ok ss => .ok (.anyOfS ss Option.none .ellipsis))
  | .unionP, _ => .error "TypeError"
  | .listP, d => buildListH parse d
  | .setP, d =>
    -- SetParser: super().parse_annotation, then uniqueItems = True
    (match buildListH parse d with
      | .error e => .error e
      | .ok s => .ok s.setUniq)
  | .tupleP, d =>
    -- TupleParser.parse_annotation
    (match d.getArgs with
      | Option.none => buildListH parse d
      | some argsL =>
        match argsL with
        | [] => buildListH parse d
        | [a] =>
          (match parseArgsH parse [a] with
            | .error e => .error e
            | .ok ss => .ok (arrayWithPre ss))
        | _ :: b :: _ =>
          match b with
          | .ellipsisD => buildListH parse d
          | _ =>
            match parseArgsH parse argsL with
            | .error e => .error e
            | .ok ss => .ok (arrayWithPre ss))
  | .dictP, d =>
    -- DictParser.parse_annotation
    (match d.getArgs with
      | some (k :: v :: _) =>
        -- `args and len(annotation.__args__) > 1`
        if cfg.strict && !(strKeyOk k) then .error (dictKeyMsg k)
        else
          match v with
          | .base .anyT => .ok (dictObject Option.none)
          | .ellipsisD => .ok (dictObject Option.none)
          | _ =>
            match parse v .ellipsis with
            | .error e => .error e
            | .ok s => .ok (dictObject (some [("^.+$", s)]))
      | _ => .ok (dictObject Option.none))
  | .enumValueP, .enumValueD c m v =>
    -- EnumValueParser.parse_annotation
    .ok (.constS v (some (c ++ "." ++ m)) Option.none .ellipsis)
  | .enumValueP, _ => .error "TypeError"
  | .enumTypeP, .enumTypeD nm doc members =>
    -- EnumTypeParser.parse_annotation
    .ok (.enumS (.list (members.map Prod.snd)) (some nm) doc .none .ellipsis)
  | .enumTypeP, _ => .error "TypeError"
  | .typedDictP, _ => .error "unreachable: no TypedDict in the modelled universe"
  | .namedTupleP, _ => .error "unreachable: no NamedTuple in the modelled universe"
  | .dataclassP, _ => .error "unreachable: no dataclass in the modelled universe"
  | p, _ => .ok (simpleNode p)

/-- The `for parser in self._types` loop of `parse_annotation` plus its
no-match tail (parsers.py lines 158-174), parameterized by the engine's
recursive resolution call. -/
def parseLoopH (parse : Desc → PyVal → Except String Schema) (cfg : Cfg) :
    List PTy → Desc → PyVal → Except String Schema
  | [], d, dflt =>
    -- parsers.py lines 169-174
    if cfg.strict then .error (strictNoMatchMsg d)
    else .ok (.jso (fallbackTitle d) Option.none .none dflt)
  | p :: rest, d, dflt =>
    if eligible cfg.strict p d then
      match buildPH parse cfg p d with
      | .error e => .error e
      | .ok s =>
        -- parsers.py lines 165-167
        .ok (match dflt with
          | .ellipsis => s
          | v => s.setDefault v)
    else parseLoopH parse cfg rest d dflt

/-- `Parser.parse_annotation` (parsers.py lines 153-174), with `fuel`
bounding recursion depth (exhaustion models the interpreter's
RecursionError). -/
def parseAnn : Nat → Cfg → Desc → PyVal → Except String Schema
  | 0, _, _, _ => .error "RecursionError: maximum recursion depth exceeded"
  | fuel + 1, cfg, d0, dflt => parseLoopH (parseAnn fuel cfg) cfg TYPES (substFwd cfg d0) dflt

/-! ### parsers.py: functions and classes -/

/-- `inspect._ParameterKind`. -/
inductive PKind where
  | positionalOnly | positionalOrKeyword | varPositional | keywordOnly | varKeyword
  deriving Repr, DecidableEq

/-- One signature parameter: name, kind, annotation descriptor
(`Desc.emptyD` when the parameter is unannotated) and declared default
(`Option.none` models `inspect.Parameter.empty`, i.e. no default). -/
structure Param where
  name : String
  kind : PKind
  ann : Desc
  dflt : Option PyVal
  deriving Repr

/-- A Python callable as seen through `inspect.signature`: ordered
parameters, the declared return annotation (`Option.none` models
`inspect._empty`), and whether the object is a `staticmethod`. -/
structure PyFunc where
  params : List Param
  returns : Option Desc
  isStatic : Bool
  deriving Repr

/-- A class-body attribute as seen by `vars(cls)`: a plain function
(`inspect.isfunction` is true), a `staticmethod` object (it is not), or any
non-function attribute. -/
inductive ClassAttr where
  | funcA (f : PyFunc)
  | staticA (f : PyFunc)
  | otherA
  deriving Repr

/-- A Python class: `own` is `vars(cls)` (the class body namespace, which is
all `parse_class` ever iterates), `inherited` are attributes contributed by
base classes (visible on the class but absent from `vars(cls)`), and
`genericChain` is the chain of generic-alias argument tuples walked by
`_parse_generic_class` — the `__args__` of `get_generic_alias(cls)` first,
down to the ultimate `Generic[...]` ancestor's formal parameter list
(empty when `get_generic_alias(cls)` is `None`). -/
structure PyClass where
  own : List (String × ClassAttr)
  inherited : List (String × ClassAttr)
  genericChain : List (List Desc)
  deriving Repr

def matchesTypeVarName (nm : String) : Desc → Bool
  | .typeVarD n _ => n = nm
  | _ => false

/-- `_parse_generic_class` (parsers.py lines 203-213) applied to the
TypeVar named `nm` (with bound `bd`): the first alias supplies the concrete
arguments, the last alias the ancestor's formal parameters; if the TypeVar
occurs among the formals and the matching index exists among the concrete
arguments, substitute, otherwise (suppressed ValueError/IndexError) return
the TypeVar unchanged.  With no generic alias at all, `alias.__args__`
raises AttributeError. -/
def parseGenericCls (cls : PyClass) (nm : String) (bd : Option Desc) : Except String Desc :=
  match cls.genericChain with
  | [] => .error "AttributeError: NoneType object has no attribute __args__"
  | c :: cs =>
    let args := c
    let baseArgs := ((c :: cs).getLast?).getD c
    match baseArgs.findIdx? (matchesTypeVarName nm) with
    | some i =>
      match args[i]? with
      | some a => .ok a
      | Option.none => .ok (.typeVarD nm bd)
    | Option.none => .ok (.typeVarD nm bd)

/-- A TypeVar-annotated parameter of a free function (parsers.py line 130,
then line 140): `TypeVarParser(self).parse_annotation` first resolves the
TypeVar's bound (which may itself raise), producing a schema NODE; line 140
then calls `parse_annotation` on that node.  No registered predicate accepts
a schema-node instance in strict mode, so strict mode raises
IncompatibleTypesError; in lenient mode `DataclassParser.can_parse`
(`is_dataclass`) accepts the node instance but its builder immediately fails
reading `annotation.__name__` (instances have no `__name__`), raising
AttributeError.  Either way the parameter fails to resolve. -/
def bareTypeVarParam (fuel : Nat) (cfg : Cfg) (bd : Option Desc) : Except String Schema :=
  let tail : Except String Schema :=
    if cfg.strict then
      .error "Unable to parse annotation of type <schema node> as jsonschema type in strict mode"
    else .error "AttributeError: __name__"
  match bd with
  | some b =>
    match parseAnn fuel cfg b .ellipsis with
    | .error e => .error e
    | .ok _ => tail
  | Option.none => tail

/-- The message of the positional-only raise (parsers.py line 124). -/
def posOnlyMsg : String :=
  "Positional only arguments cannot be converted to a JSONSchema object."

/-- The engine default supplied for a parameter (parsers.py lines
134-138): the `...` sentinel when the parameter has no declared default,
else the declared default value. -/
def declaredDefault (p : Param) : PyVal :=
  match p.dflt with
  | Option.none => .ellipsis
  | some v => v

/-- The annotation resolution of one kept parameter (parsers.py lines
126-140): the TypeVar branch goes through `_parse_generic_class` when an
owner class exists and through the failing bare path otherwise; every other
annotation goes straight to `parse_annotation`. -/
def paramNode (fuel : Nat) (cfg : Cfg) (cls : Option PyClass) (p : Param)
    (dflt : PyVal) : Except String Schema :=
  match p.ann, cls with
  | .typeVarD nm bd, some c =>
    match parseGenericCls c nm bd with
    | .error e => .error e
    | .ok a => parseAnn fuel cfg a dflt
  | .typeVarD _ bd, Option.none => bareTypeVarParam fuel cfg bd
  | a, _ => parseAnn fuel cfg a dflt

/-- The parameter loop of `parse_function` (parsers.py lines 107-140),
accumulating the `params` property map, the `required` list, and the
`additional_properties` flag.  `n` is the raw `enumerate` index. -/
def processParams (fuel : Nat) (cfg : Cfg) (cls : Option PyClass) (isStatic : Bool) :
    Nat → List Param → Except String (List (String × Schema) × List String × Bool)
  | _, [] => .ok ([], [], false)
  | n, p :: rest =>
    if cfg.privArgPre ≠ "" && pyStartsWith p.name cfg.privArgPre then
      processParams fuel cfg cls isStatic (n + 1) rest
    else if cls.isSome && n == 0 && !isStatic then
      processParams fuel cfg cls isStatic (n + 1) rest
    else if p.kind = .varPositional then
      processParams fuel cfg cls isStatic (n + 1) rest
    else if p.kind = .varKeyword then
      match processParams fuel cfg cls isStatic (n + 1) rest with
      | .error e => .error e
      | .ok (ps, rq, _) => .ok (ps, rq, true)
    else if p.kind = .positionalOnly then
      .error posOnlyMsg
    else
      match paramNode fuel cfg cls p (declaredDefault p) with
      | .error e => .error e
      | .ok s =>
        match processParams fuel cfg cls isStatic (n + 1) rest with
        | .error e => .error e
        | .ok (ps, rq, ap) =>
          .ok ((p.name, s) :: ps,
               (match p.dflt with
                | Option.none => p.name :: rq
                | some _ => rq),
               ap)

/-- `FunctionAnnotation`: input kwargs Object and return schema. -/
structure FunctionAnn where
  kwargs : Option Schema
  returns : Option Schema
  deriving Repr

/-- `Parser.parse_function` (parsers.py lines 100-151). -/
def parseFunction (fuel : Nat) (cfg : Cfg) (f : PyFunc) (cls : Option PyClass) :
    Except String FunctionAnn :=
  match processParams fuel cfg cls f.isStatic 0 f.params with
  | .error e => .error e
  | .ok (ps, rq, ap) =>
    let kwargs : Option Schema :=
      match ps with
      | [] => Option.none
      | _ =>
        some (.objectS (some ps) Option.none (some ap) Option.none Option.none (some rq)
          Option.none Option.none .none .none .ellipsis)
    match f.returns with
    | Option.none => .ok ⟨kwargs, Option.none⟩
    | some r =>
      match parseAnn fuel cfg r .ellipsis with
      | .error e => .error e
      | .ok s => .ok ⟨kwargs, some s⟩

/-- The attribute loop of `Parser.parse_class` (parsers.py lines 90-98),
over a given attribute list. -/
def parseClassGo (fuel : Nat) (cfg : Cfg) (cls : PyClass) :
    List (String × ClassAttr) → Except String (List (String × FunctionAnn))
  | [] => .ok []
  | (nm, a) :: rest =>
    if cfg.privArgPre ≠ "" && pyStartsWith nm cfg.privArgPre then
      parseClassGo fuel cfg cls rest
    else
      match a with
      | .funcA f =>
        match parseFunction fuel cfg f (some cls) with
        | .error e => .error e
        | .ok fa =>
          match parseClassGo fuel cfg cls rest with
          | .error e => .error e
          | .ok m => .ok ((nm, fa) :: m)
      | _ => parseClassGo fuel cfg cls rest

/-- `Parser.parse_class`: iterates `vars(cls)` — the class's own body
namespace only. -/
def parseClass (fuel : Nat) (cfg : Cfg) (cls : PyClass) :
    Except String (List (String × FunctionAnn)) :=
  parseClassGo fuel cfg cls cls.own

/-! ### schema.py: init interfaces of the string alias nodes (for C8)

String's init fields in declaration order are `minLength, maxLength,
pattern, format, title, description, examples, enum, default`. -/

/-- The init interface of `DateTime` (schema.py lines 161-168): `format`
remains an ordinary init field, merely redeclared with default value
`date-time`; a caller may pass any value for it. -/
def DateTime.make (minLength maxLength : Option Int) (pattern : Option String)
    (format : Option String) (title description : Option String)
    (examples enum default : PyVal) : Schema :=
  .stringS minLength maxLength pattern format title description examples enum default

/-- Constructing `DateTime` without passing `format` supplies the class
default, the string `date-time`. -/
def DateTime.defaultFormat : Option String := some "date-time"

/-- The init interface of `Date` (schema.py lines 171-181): `format` is
`field(init=False)` — it is not a constructor argument (passing it raises
TypeError) — and `__post_init__` assigns the string `date`. -/
def Date.make (minLength maxLength : Option Int) (pattern : Option String)
    (title description : Option String) (examples enum default : PyVal) : Schema :=
  .stringS minLength maxLength pattern (some "date") title description examples enum default

/-- The init interface of `GUID` (schema.py lines 184-194): like `Date`
with fixed format `uuid`. -/
def GUID.make (minLength maxLength : Option Int) (pattern : Option String)
    (title description : Option String) (examples enum default : PyVal) : Schema :=
  .stringS minLength maxLength pattern (some "uuid") title description examples enum default

/-- The init interface of `Email` (schema.py lines 197-207): like `Date`
with fixed format `email`. -/
def Email.make (minLength maxLength : Option Int) (pattern : Option String)
    (title description : Option String) (examples enum default : PyVal) : Schema :=
  .stringS minLength maxLength pattern (some "email") title description examples enum default

/-! ### The serialization invariant (for C2)

`goodVal v` states that no dictionary inside `v`, at any nesting depth,
has an entry whose value is `None` or `Ellipsis` (values inside lists are
unrestricted: a `null` member of an `enum` list is legitimate output). -/

mutual

def goodVal : PyVal → Bool
  | .dict xs => goodEntries xs
  | .list xs => goodList xs
  | _ => true

def goodList : List PyVal → Bool
  | [] => true
  | v :: vs => goodVal v && goodList vs

def goodEntries : List (String × PyVal) → Bool
  | [] => true
  | (_, v) :: kvs =>
    (match v with
      | .none => false
      | .ellipsis => false
      | _ => goodVal v) && goodEntries kvs

end

theorem goodEntries_append (a b : List (String × PyVal)) :
    goodEntries (a ++ b) = (goodEntries a && goodEntries b) := by
  induction a with
  | nil => simp [goodEntries]
  | cons kv rest ih =>
    obtain ⟨k, v⟩ := kv
    simp [goodEntries, ih, Bool.and_assoc]

mutual

theorem good_serializeVal : ∀ v, goodVal (serializeVal v) = true
  | .dict xs => by simp [serializeVal, goodVal, good_serializeEntries xs]
  | .list xs => by simp [serializeVal, goodVal, good_serializeList xs]
  | .none => rfl
  | .ellipsis => rfl
  | .bool _ => rfl
  | .int _ => rfl
  | .str _ => rfl

theorem good_serializeList : ∀ l, goodList (serializeList l) = true
  | [] => rfl
  | v :: vs => by
    simp [serializeList, goodList, good_serializeVal v, good_serializeList vs]

theorem good_serializeEntries : ∀ kvs, goodEntries (serializeEntries kvs) = true
  | [] => rfl
  | (k, v) :: kvs => by
    by_cases hk : pyStartsWith k "_"
    · simp [serializeEntries, hk, good_serializeEntries kvs]
    · cases v with
      | none => simp [serializeEntries, hk, good_serializeEntries kvs]
      | ellipsis => simp [serializeEntries, hk, good_serializeEntries kvs]
      | bool b => simp [serializeEntries, hk, goodEntries, goodVal, serializeVal, good_serializeEntries kvs]
      | int n => simp [serializeEntries, hk, goodEntries, goodVal, serializeVal, good_serializeEntries kvs]
      | str s => simp [serializeEntries, hk, goodEntries, goodVal, serializeVal, good_serializeEntries kvs]
      | list xs =>
        simp [serializeEntries, hk, goodEntries, serializeVal, goodVal,
          good_serializeList xs, good_serializeEntries kvs]
      | dict xs =>
        simp [serializeEntries, hk, goodEntries, serializeVal, goodVal,
          good_serializeEntries xs, good_serializeEntries kvs]

end

theorem good_strF (k : String) (t : Option String) : goodEntries (strF k t) = true := by
  cases t <;> rfl

theorem good_boolF (k : String) (t : Option Bool) : goodEntries (boolF k t) = true := by
  cases t <;> rfl

theorem good_intF (k : String) (t : Option Int) : goodEntries (intF k t) = true := by
  cases t <;> rfl

theorem good_str_list (l : List String) : goodList (l.map .str) = true := by
  induction l with
  | nil => rfl
  | cons s rest ih => simp [goodList, goodVal, ih]

theorem good_strsF (k : String) (t : Option (List String)) : goodEntries (strsF k t) = true := by
  cases t with
  | none => rfl
  | some l => simp [strsF, goodEntries, goodVal, good_str_list l]

theorem good_rawF (k : String) (v : PyVal) : goodEntries (rawF k v) = true := by
  cases v with
  | none => rfl
  | ellipsis => rfl
  | bool b => rfl
  | int n => rfl
  | str s => rfl
  | list xs => simp [rawF, goodEntries, serializeVal, goodVal, good_serializeList xs]
  | dict xs => simp [rawF, goodEntries, serializeVal, goodVal, good_serializeEntries xs]

/-- Every node's `json_repr` is a dictionary. -/
theorem jsonRepr_eq_dict (s : Schema) : ∃ xs, Schema.jsonRepr s = .dict xs := by
  cases s <;> simp only [Schema.jsonRepr] <;> exact ⟨_, rfl⟩

mutual

theorem good_jsonRepr : ∀ s, goodVal (Schema.jsonRepr s) = true
  | .jso t d e v => by
    simp only [Schema.jsonRepr, goodVal, goodEntries_append,
      good_strF, good_rawF, Bool.and_self]
  | .enumS en t d e v => by
    simp only [Schema.jsonRepr, goodVal, goodEntries_append,
      good_strF, good_rawF, Bool.and_self]
  | .constS c t d v => by
    simp only [Schema.jsonRepr, goodVal, goodEntries_append,
      good_strF, good_rawF, Bool.and_self]
  | .booleanS t d v => by
    simp only [Schema.jsonRepr, goodVal, goodEntries_append,
      good_strF, good_rawF, Bool.and_self, Bool.and_true]
    rfl
  | .stringS a b p f t d e en v => by
    simp only [Schema.jsonRepr, goodVal, goodEntries_append,
      good_strF, good_rawF, good_intF, Bool.and_self, Bool.and_true]
    rfl
  | .numberS m mi ma emi ema t d e en v => by
    simp only [Schema.jsonRepr, goodVal, goodEntries_append,
      good_strF, good_rawF, Bool.and_self, Bool.and_true]
    rfl
  | .integerS m mi ma emi ema t d e en v => by
    simp only [Schema.jsonRepr, goodVal, goodEntries_append,
      good_strF, good_rawF, Bool.and_self, Bool.and_true]
    rfl
  | .arrayS i pi c ai ui mi ma t d e en v => by
    simp only [Schema.jsonRepr, goodVal, goodEntries_append,
      good_strF, good_rawF, good_intF, good_boolF,
      good_nodeF_opt "items" i, good_nodeF_opt "contains" c,
      good_nodeF_optList "prefixItems" pi, Bool.and_self, Bool.and_true]
    rfl
  | .objectS p pp ap mi ma r t d e en v => by
    simp only [Schema.jsonRepr, goodVal, goodEntries_append,
      good_strF, good_rawF, good_intF, good_boolF, good_strsF,
      good_nodeF_optMap "properties" p, good_nodeF_optMap "patternProperties" pp,
      Bool.and_self, Bool.and_true]
    rfl
  | .anyOfS items dt dv => by
    simp only [Schema.jsonRepr, goodVal, goodEntries, good_jsonReprList items,
      Bool.and_true]
  | .oneOfS items dt dv => by
    simp only [Schema.jsonRepr, goodVal, goodEntries, good_jsonReprList items,
      Bool.and_true]
  | .allOfS items dt dv => by
    simp only [Schema.jsonRepr, goodVal, goodEntries, good_jsonReprList items,
      Bool.and_true]
  | .notS item dt dv => by
    obtain ⟨xs, hx⟩ := jsonRepr_eq_dict item
    have h := good_jsonRepr item
    rw [hx] at h
    simp only [goodVal] at h
    simp only [Schema.jsonRepr, hx, goodVal, goodEntries, h, Bool.and_true]
  | .nullableS item dt dv => by
    obtain ⟨xs, hx⟩ := jsonRepr_eq_dict item
    have h := good_jsonRepr item
    rw [hx] at h
    simp only [goodVal] at h
    simp only [Schema.jsonRepr, hx, goodVal, goodList, goodEntries, h, Bool.and_true]

theorem good_nodeF_opt : ∀ (k : String) (o : Option Schema),
    goodEntries (nodeF k (jsonReprOpt o)) = true
  | _, Option.none => rfl
  | k, some s => by
    obtain ⟨xs, hx⟩ := jsonRepr_eq_dict s
    have h := good_jsonRepr s
    rw [hx] at h
    simp only [goodVal] at h
    simp only [jsonReprOpt, nodeF, hx, goodEntries, goodVal, h, Bool.and_self]

theorem good_nodeF_optList : ∀ (k : String) (o : Option (List Schema)),
    goodEntries (nodeF k (jsonReprOptList o)) = true
  | _, Option.none => rfl
  | k, some l => by
    simp only [jsonReprOptList, nodeF, goodEntries, goodVal, good_jsonReprList l,
      Bool.and_self]

theorem good_nodeF_optMap : ∀ (k : String) (o : Option (List (String × Schema))),
    goodEntries (nodeF k (jsonReprOptMap o)) = true
  | _, Option.none => rfl
  | k, some m => by
    simp only [jsonReprOptMap, nodeF, goodEntries, goodVal, good_jsonReprMap m,
      Bool.and_self]

theorem good_jsonReprList : ∀ l, goodList (jsonReprList l) = true
  | [] => rfl
  | s :: ss => by
    simp only [jsonReprList, goodList, good_jsonRepr s, good_jsonReprList ss,
      Bool.and_self]

theorem good_jsonReprMap : ∀ m, goodEntries (jsonReprMap m) = true
  | [] => rfl
  | (k, s) :: ss => by
    by_cases hk : pyStartsWith k "_"
    · simp only [jsonReprMap, hk, if_true, good_jsonReprMap ss]
    · obtain ⟨xs, hx⟩ := jsonRepr_eq_dict s
      have h := good_jsonRepr s
      rw [hx] at h
      simp only [goodVal] at h
      simp only [jsonReprMap, hk, if_false, hx, goodEntries, goodVal, h,
        good_jsonReprMap ss, Bool.and_self]

end

/-! ### Claim theorems -/

/-- C2 counterexample: the claim asserts that a literal `null` appearing as
a `const` value is preserved in the serialized output.  It is not: the key
filter of `_serialize_schema_keys` drops every key whose raw value is
`None`, including the declared `const` field of `Const(const=None)`, whose
`json_repr` is therefore the empty map, with no `const` key at all. -/
theorem C2_const_null_dropped :
    Schema.jsonRepr (.constS .none Option.none Option.none .ellipsis) = .dict [] := rfl

/-- C2 (amended): for every schema node, `json_repr` never emits a key
whose value is the unset sentinel (Ellipsis) or None, at any nesting depth
(`goodVal` checks every dictionary in the output, including nested defaults
and property maps); the literal value `null` inside an `enum` list is
preserved (second conjunct, `Null().json_repr() == {"enum": [null]}`); but
`null` as a `const` value is dropped like any other None-valued key (third
conjunct), not preserved as the claim stated. -/
theorem C2_serialization_invariant :
    (∀ s : Schema, goodVal (Schema.jsonRepr s) = true)
    ∧ Schema.jsonRepr (.enumS (.list [.none]) Option.none Option.none .none .ellipsis) =
        .dict [("enum", .list [.none])]
    ∧ Schema.jsonRepr (.constS .none Option.none Option.none .ellipsis) = .dict [] :=
  ⟨good_jsonRepr, rfl, rfl⟩

/-- C8 counterexample: the claim asserts that all four aliases (Date,
DateTime, GUID, Email) reject a `format` override at construction.
`DateTime` does not: its `format` is an ordinary init field (merely
redeclared with default value `date-time`, unlike the `field(init=False)`
declarations of Date/GUID/Email), so `DateTime(format="email")` constructs
an instance carrying format `email`. -/
theorem C8_datetime_format_overridable :
    (DateTime.make Option.none Option.none Option.none (some "email") Option.none
      Option.none .none .none .ellipsis).getFormat = some "email"
    ∧ (some "email" : Option String) ≠ some "date-time" := by
  exact ⟨rfl, by decide⟩

/-- C8 (amended): `Date`, `GUID` and `Email` fix their `format` at
construction — `format` is `field(init=False)` (no constructor argument
exists for it, so an override attempt is a TypeError) and `__post_init__`
forces the documented value, for every combination of the remaining
constructor arguments.  `DateTime`'s documented value `date-time` is only
the default of an ordinary init field: it applies when `format` is not
passed, but construction can override it (see the counterexample). -/
theorem C8_fixed_formats :
    (∀ (a b : Option Int) (p t d : Option String) (e en v : PyVal),
      (Date.make a b p t d e en v).getFormat = some "date")
    ∧ (∀ (a b : Option Int) (p t d : Option String) (e en v : PyVal),
      (GUID.make a b p t d e en v).getFormat = some "uuid")
    ∧ (∀ (a b : Option Int) (p t d : Option String) (e en v : PyVal),
      (Email.make a b p t d e en v).getFormat = some "email")
    ∧ (∀ (a b : Option Int) (p t d : Option String) (e en v : PyVal),
      (DateTime.make a b p DateTime.defaultFormat t d e en v).getFormat = some "date-time") :=
  ⟨fun _ _ _ _ _ _ _ _ => rfl, fun _ _ _ _ _ _ _ _ => rfl,
   fun _ _ _ _ _ _ _ _ => rfl, fun _ _ _ _ _ _ _ _ => rfl⟩

/-! ### Engine lemmas: the scan of the registry -/

/-- Scanning a registry segment in which no parser is eligible falls
through to the tail (the no-match branch). -/
theorem parseLoopH_skip_all (parse : Desc → PyVal → Except String Schema) (cfg : Cfg)
    (d : Desc) (dflt : PyVal) :
    ∀ l : List PTy, (∀ q ∈ l, eligible cfg.strict q d = false) →
      parseLoopH parse cfg l d dflt = parseLoopH parse cfg [] d dflt := by
  intro l
  induction l with
  | nil => intro _; rfl
  | cons q rest ih =>
    intro h
    have hq := h q (List.mem_cons_self q rest)
    simp only [parseLoopH, hq, Bool.false_eq_true, if_false]
    exact ih fun r hr => h r (List.mem_cons_of_mem q hr)

/-- The first eligible parser in the registry decides the outcome: every
parser after it is ignored. -/
theorem parseLoopH_first (parse : Desc → PyVal → Except String Schema) (cfg : Cfg)
    (d : Desc) (dflt : PyVal) :
    ∀ (l1 : List PTy) (p : PTy) (l2 : List PTy),
      (∀ q ∈ l1, eligible cfg.strict q d = false) →
      eligible cfg.strict p d = true →
      parseLoopH parse cfg (l1 ++ p :: l2) d dflt = parseLoopH parse cfg [p] d dflt := by
  intro l1
  induction l1 with
  | nil =>
    intro p l2 _ hp
    simp only [List.nil_append, parseLoopH, hp, if_true]
  | cons q rest ih =>
    intro p l2 h hp
    have hq := h q (List.mem_cons_self q rest)
    simp only [List.cons_append, parseLoopH, hq, Bool.false_eq_true, if_false]
    exact ih p l2 (fun r hr => h r (List.mem_cons_of_mem q hr)) hp

/-- C1: the error sites of `IncompatibleTypesError`, and lenient
degradation.  Conjunct 1: `parse_annotation`'s own raise fires exactly in
strict mode when no registered parser is eligible for the (forward-ref
substituted) descriptor, naming that descriptor.  Conjunct 2: in lenient
mode the same situation never raises, and yields the fallback
`JSONSchemaObject` whose title is the stringified descriptor
(`fallbackTitle`) and whose default is the supplied default.  Conjunct 3:
`parse_function` raises on a positional-only parameter that is not skipped
by the private-prefix or receiver rules.  Conjunct 4: `DictParser` raises
in strict mode for a mapping whose key type argument is not `str`, `bytes`
or `AnyStr`, the message naming the actual key type (`dictKeyMsg`).
Conjunct 5 (the other half of "exactly"): as soon as some parser is
eligible, the outcome is that first eligible parser's build — the no-match
raise does not fire. -/
theorem C1_incompatible_error_sites :
    (∀ (fuel : Nat) (cfg : Cfg) (d : Desc) (dflt : PyVal), cfg.strict = true →
      (∀ q ∈ TYPES, eligible cfg.strict q (substFwd cfg d) = false) →
      parseAnn (fuel + 1) cfg d dflt = .error (strictNoMatchMsg (substFwd cfg d)))
    ∧ (∀ (fuel : Nat) (cfg : Cfg) (d : Desc) (dflt : PyVal), cfg.strict = false →
      (∀ q ∈ TYPES, eligible cfg.strict q (substFwd cfg d) = false) →
      parseAnn (fuel + 1) cfg d dflt =
        .ok (.jso (fallbackTitle (substFwd cfg d)) Option.none .none dflt))
    ∧ (∀ (fuel : Nat) (cfg : Cfg) (cls : Option PyClass) (st : Bool) (n : Nat)
        (p : Param) (rest : List Param),
      (cfg.privArgPre ≠ "" && pyStartsWith p.name cfg.privArgPre) = false →
      (cls.isSome && n == 0 && !st) = false →
      p.kind = .positionalOnly →
      processParams fuel cfg cls st n (p :: rest) = .error posOnlyMsg)
    ∧ (∀ (parse : Desc → PyVal → Except String Schema) (cfg : Cfg)
        (k v : Desc) (rest : List Desc), cfg.strict = true → strKeyOk k = false →
      buildPH parse cfg .dictP (.generic .dictT (some (k :: v :: rest))) =
        .error (dictKeyMsg k))
    ∧ (∀ (fuel : Nat) (cfg : Cfg) (d : Desc) (dflt : PyVal) (l1 : List PTy) (p : PTy)
        (l2 : List PTy), TYPES = l1 ++ p :: l2 →
      (∀ q ∈ l1, eligible cfg.strict q (substFwd cfg d) = false) →
      eligible cfg.strict p (substFwd cfg d) = true →
      parseAnn (fuel + 1) cfg d dflt =
        parseLoopH (parseAnn fuel cfg) cfg [p] (substFwd cfg d) dflt) := by
  refine ⟨?_, ?_, ?_, ?_, ?_⟩
  · intro fuel cfg d dflt hs h
    have h0 : parseAnn (fuel + 1) cfg d dflt =
        parseLoopH (parseAnn fuel cfg) cfg TYPES (substFwd cfg d) dflt := rfl
    rw [h0, parseLoopH_skip_all _ _ _ _ TYPES h]
    simp [parseLoopH, hs]
  · intro fuel cfg d dflt hs h
    have h0 : parseAnn (fuel + 1) cfg d dflt =
        parseLoopH (parseAnn fuel cfg) cfg TYPES (substFwd cfg d) dflt := rfl
    rw [h0, parseLoopH_skip_all _ _ _ _ TYPES h]
    simp [parseLoopH, hs]
  · intro fuel cfg cls st n p rest hpriv hrecv hkind
    simp only [processParams, hpriv, hrecv, hkind, Bool.false_eq_true, if_false]
    rfl
  · intro parse cfg k v rest hs hk
    simp [buildPH, Desc.getArgs, hs, hk]
  · intro fuel cfg d dflt l1 p l2 hT h hp
    have h0 : parseAnn (fuel + 1) cfg d dflt =
        parseLoopH (parseAnn fuel cfg) cfg TYPES (substFwd cfg d) dflt := rfl
    rw [h0, hT, parseLoopH_first (parseAnn fuel cfg) cfg (substFwd cfg d) dflt l1 p l2 h hp]

/-- C1 witness: (1) strict mode rejects `UUID` (only the non-strict
UUIDParser matches it); (2) lenient mode turns a no-match (a missing
annotation) into the fallback node carrying the supplied default; (3) a
positional-only parameter raises; (4) `Dict[int, str]` raises in strict
mode naming `int`; (5) a matching descriptor (`str`) goes to its first
eligible parser instead of the no-match raise. -/
theorem C1_witness :
    parseAnn 1 ⟨true, "_", []⟩ (.base .uuidT) .ellipsis =
      .error (strictNoMatchMsg (substFwd ⟨true, "_", []⟩ (.base .uuidT)))
    ∧ parseAnn 1 ⟨false, "_", []⟩ .emptyD (.int 5) =
      .ok (.jso (fallbackTitle (substFwd ⟨false, "_", []⟩ .emptyD)) Option.none .none (.int 5))
    ∧ processParams 1 ⟨true, "_", []⟩ Option.none false 0
        [⟨"x", .positionalOnly, .base .strT, Option.none⟩] = .error posOnlyMsg
    ∧ buildPH (parseAnn 1 ⟨true, "_", []⟩) ⟨true, "_", []⟩ .dictP
        (.generic .dictT (some [.base .intT, .base .strT])) = .error (dictKeyMsg (.base .intT))
    ∧ parseAnn 1 ⟨true, "_", []⟩ (.base .strT) .ellipsis =
        parseLoopH (parseAnn 0 ⟨true, "_", []⟩) ⟨true, "_", []⟩ [.stringP]
          (substFwd ⟨true, "_", []⟩ (.base .strT)) .ellipsis :=
  ⟨C1_incompatible_error_sites.1 0 ⟨true, "_", []⟩ (.base .uuidT) .ellipsis rfl (by decide),
   C1_incompatible_error_sites.2.1 0 ⟨false, "_", []⟩ .emptyD (.int 5) rfl (by decide),
   C1_incompatible_error_sites.2.2.1 1 ⟨true, "_", []⟩ Option.none false 0
     ⟨"x", .positionalOnly, .base .strT, Option.none⟩ [] (by decide) (by decide) rfl,
   C1_incompatible_error_sites.2.2.2.1 (parseAnn 1 ⟨true, "_", []⟩) ⟨true, "_", []⟩
     (.base .intT) (.base .strT) [] rfl rfl,
   C1_incompatible_error_sites.2.2.2.2 0 ⟨true, "_", []⟩ (.base .strT) .ellipsis
     [.anyP] .stringP
     [.uuidP, .dateP, .dateTimeP, .integerP, .numberP, .booleanP, .nullP,
      .typeVarP, .newTypeP, .constantP, .unionP, .listP, .setP, .tupleP, .dictP,
      .typedDictP, .namedTupleP, .enumValueP, .enumTypeP, .dataclassP]
     rfl (by decide) (by decide)⟩

/-- C3: rule precedence is exactly registration order.  Conjunct 1: for any
split of the registry into `l1 ++ p :: l2` where nothing in `l1` is
eligible (fails `can_parse`, or is excluded by strict mode via its
`strict = False` attribute) and `p` is eligible, the scan behaves as if the
registry were just `[p]` — every later parser is ignored.  Conjunct 2:
`parse_annotation` is exactly that scan of the default registry `TYPES`
after forward-reference substitution.  Conjuncts 3 and 4: in `TYPES`
(class-definition order), union matching precedes list/container matching,
and enum-instance matching precedes enum-type matching. -/
theorem C3_first_match_precedence :
    (∀ (parse : Desc → PyVal → Except String Schema) (cfg : Cfg) (d : Desc) (dflt : PyVal)
      (l1 : List PTy) (p : PTy) (l2 : List PTy),
      (∀ q ∈ l1, eligible cfg.strict q d = false) →
      eligible cfg.strict p d = true →
      parseLoopH parse cfg (l1 ++ p :: l2) d dflt = parseLoopH parse cfg [p] d dflt)
    ∧ (∀ (fuel : Nat) (cfg : Cfg) (d : Desc) (dflt : PyVal),
      parseAnn (fuel + 1) cfg d dflt =
        parseLoopH (parseAnn fuel cfg) cfg TYPES (substFwd cfg d) dflt)
    ∧ TYPES.findIdx (fun q => q == PTy.unionP) < TYPES.findIdx (fun q => q == PTy.listP)
    ∧ TYPES.findIdx (fun q => q == PTy.enumValueP) < TYPES.findIdx (fun q => q == PTy.enumTypeP) := by
  refine ⟨?_, fun _ _ _ _ => rfl, by decide, by decide⟩
  intro parse cfg d dflt l1 p l2 h hp
  exact parseLoopH_first parse cfg d dflt l1 p l2 h hp

/-- C3 witness: scanning the full default registry on a union descriptor
behaves as if the registry contained only `UnionParser` (the parsers
registered before it all fail their predicates; the ones after it are
ignored). -/
theorem C3_witness :
    parseLoopH (parseAnn 1 ⟨true, "_", []⟩) ⟨true, "_", []⟩
      ([.anyP, .stringP, .uuidP, .dateP, .dateTimeP, .integerP, .numberP, .booleanP,
        .nullP, .typeVarP, .newTypeP, .constantP] ++ .unionP ::
        [.listP, .setP, .tupleP, .dictP, .typedDictP, .namedTupleP, .enumValueP,
         .enumTypeP, .dataclassP])
      (.unionD [.base .strT, .base .intT]) .ellipsis =
    parseLoopH (parseAnn 1 ⟨true, "_", []⟩) ⟨true, "_", []⟩ [.unionP]
      (.unionD [.base .strT, .base .intT]) .ellipsis :=
  C3_first_match_precedence.1 (parseAnn 1 ⟨true, "_", []⟩) ⟨true, "_", []⟩
    (.unionD [.base .strT, .base .intT]) .ellipsis
    [.anyP, .stringP, .uuidP, .dateP, .dateTimeP, .integerP, .numberP, .booleanP,
     .nullP, .typeVarP, .newTypeP, .constantP] .unionP
    [.listP, .setP, .tupleP, .dictP, .typedDictP, .namedTupleP, .enumValueP,
     .enumTypeP, .dataclassP] (by decide) (by decide)

/-- Marker predicate: is this descriptor the Ellipsis marker? -/
def Desc.isEllipsisMark : Desc → Bool
  | .ellipsisD => true
  | _ => false

/-- Marker predicate: is this node exactly an `AnyOf` (the `type(arg) is
j.AnyOf` check of ListParser)? -/
def Schema.isAnyOfNode : Schema → Bool
  | .anyOfS _ _ _ => true
  | _ => false

theorem parseArgsH_single (parse : Desc → PyVal → Except String Schema) (a : Desc)
    (hE : a.isEllipsisMark = false) :
    parseArgsH parse [a] =
      (match parse a .ellipsis with
        | .error e => .error e
        | .ok s => .ok [s]) := by
  cases a <;> simp_all [parseArgsH, Desc.isEllipsisMark]

theorem flattenAnyOf_single_not (s : Schema) (hA : s.isAnyOfNode = false) :
    flattenAnyOf [s] = [s] := by
  cases s <;> simp_all [flattenAnyOf, Schema.isAnyOfNode]

theorem flattenAnyOf_single_anyOf (ms : List Schema) (dt : Option String) (dv : PyVal) :
    flattenAnyOf [.anyOfS ms dt dv] = ms := by
  simp [flattenAnyOf]

/-- Scanning the full registry on a descriptor recognized by ListParser
(and by none of the parsers registered before it) behaves as a registry of
just ListParser. -/
theorem parseLoopH_to_listP (parse : Desc → PyVal → Except String Schema) (cfg : Cfg)
    (d : Desc) (dflt : PyVal)
    (h : canParse .listP d = true)
    (hpre : ∀ q ∈ ([.anyP, .stringP, .uuidP, .dateP, .dateTimeP, .integerP, .numberP,
      .booleanP, .nullP, .typeVarP, .newTypeP, .constantP, .unionP] : List PTy),
      canParse q d = false) :
    parseLoopH parse cfg TYPES d dflt = parseLoopH parse cfg [.listP] d dflt := by
  have hTypes : TYPES =
      ([.anyP, .stringP, .uuidP, .dateP, .dateTimeP, .integerP, .numberP,
        .booleanP, .nullP, .typeVarP, .newTypeP, .constantP, .unionP] : List PTy) ++
      .listP :: [.setP, .tupleP, .dictP, .typedDictP, .namedTupleP, .enumValueP,
        .enumTypeP, .dataclassP] := rfl
  rw [hTypes]
  apply parseLoopH_first
  · intro q hq
    simp [eligible, hpre q hq]
  · simp [eligible, h, Bool.or_true]
    exact Or.inr rfl

theorem listBase_cases (o : BaseTy) (h : (typesOf PTy.listP).contains o = true) :
    o = .listT ∨ o = .collectionT ∨ o = .iterableT := by
  revert h; cases o <;> decide

theorem parseLoopH_singleton_listP (parse : Desc → PyVal → Except String Schema)
    (cfg : Cfg) (d : Desc) (dflt : PyVal) (h : canParse .listP d = true) :
    parseLoopH parse cfg [.listP] d dflt =
      (match buildListH parse d with
        | .error e => .error e
        | .ok s => .ok (match dflt with | .ellipsis => s | v => s.setDefault v)) := by
  have he : eligible cfg.strict .listP d = true := by
    simp [eligible, h, Bool.or_true]
    exact Or.inr rfl
  simp [parseLoopH, he, buildPH]

theorem parseAnn_to_buildList (fuel : Nat) (cfg : Cfg) (d : Desc) (dflt : PyVal)
    (h : canParse .listP d = true)
    (hpre : ∀ q ∈ ([.anyP, .stringP, .uuidP, .dateP, .dateTimeP, .integerP, .numberP,
      .booleanP, .nullP, .typeVarP, .newTypeP, .constantP, .unionP] : List PTy),
      canParse q d = false) :
    parseAnn (fuel + 1) cfg d dflt =
      (match buildListH (parseAnn fuel cfg) d with
        | .error e => .error e
        | .ok s => .ok (match dflt with | .ellipsis => s | v => s.setDefault v)) := by
  have hsub : substFwd cfg d = d := by
    cases d <;> simp_all [canParse, canParseDefault, Desc.getOrigin, substFwd]
  have h0 : parseAnn (fuel + 1) cfg d dflt =
      parseLoopH (parseAnn fuel cfg) cfg TYPES (substFwd cfg d) dflt := rfl
  rw [h0, hsub, parseLoopH_to_listP _ _ _ _ h hpre, parseLoopH_singleton_listP _ _ _ _ h]

/-- C4: resolution of the list-like containers (`list`, `List`,
`Collection`, `Iterable`, in plain and alias form — the `types` of
ListParser).  Conjunct 1: a bare class (no `__args__`) resolves to a bare
Array with no `items`.  Conjunct 2: a bare alias (`__args__` absent)
likewise.  Conjunct 3: with one type argument whose resolution is not an
`AnyOf`, `items` is exactly that resolved node.  Conjunct 4: when the one
argument resolves to an `AnyOf`, its members are flattened into the
argument list and only the first member becomes `items`.  Conjunct 5: the
sequence-of-strings scenario, `List[str]` with no default serializing to
`{"items": {"type": "string"}, "type": "array"}`. -/
theorem C4_list_container_resolution :
    (∀ (fuel : Nat) (cfg : Cfg) (o : BaseTy), (typesOf PTy.listP).contains o = true →
      parseAnn (fuel + 1) cfg (.base o) .ellipsis = .ok bareArray)
    ∧ (∀ (fuel : Nat) (cfg : Cfg) (o : BaseTy), (typesOf PTy.listP).contains o = true →
      parseAnn (fuel + 1) cfg (.generic o Option.none) .ellipsis = .ok bareArray)
    ∧ (∀ (fuel : Nat) (cfg : Cfg) (o : BaseTy) (a : Desc) (s : Schema),
      (typesOf PTy.listP).contains o = true →
      a.isEllipsisMark = false →
      parseAnn fuel cfg a .ellipsis = .ok s →
      s.isAnyOfNode = false →
      parseAnn (fuel + 1) cfg (.generic o (some [a])) .ellipsis = .ok (arrayWithItems s))
    ∧ (∀ (fuel : Nat) (cfg : Cfg) (o : BaseTy) (a : Desc) (m : Schema) (ms : List Schema)
        (dt : Option String) (dv : PyVal),
      (typesOf PTy.listP).contains o = true →
      a.isEllipsisMark = false →
      parseAnn fuel cfg a .ellipsis = .ok (.anyOfS (m :: ms) dt dv) →
      parseAnn (fuel + 1) cfg (.generic o (some [a])) .ellipsis = .ok (arrayWithItems m))
    ∧ (parseAnn 2 ⟨true, "_", []⟩ (.generic .listT (some [.base .strT])) .ellipsis).map
        Schema.jsonRepr =
      .ok (.dict [("items", .dict [("type", .str "string")]), ("type", .str "array")]) := by
  refine ⟨?_, ?_, ?_, ?_, rfl⟩
  · intro fuel cfg o ho
    have hc : canParse .listP (.base o) = true := by
      rcases listBase_cases o ho with rfl | rfl | rfl <;> rfl
    have hpre : ∀ q ∈ ([.anyP, .stringP, .uuidP, .dateP, .dateTimeP, .integerP, .numberP,
        .booleanP, .nullP, .typeVarP, .newTypeP, .constantP, .unionP] : List PTy),
        canParse q (.base o) = false := by
      intro q hq
      rcases listBase_cases o ho with rfl | rfl | rfl <;> fin_cases hq <;> rfl
    rw [parseAnn_to_buildList fuel cfg (.base o) .ellipsis hc hpre]
    rfl
  · intro fuel cfg o ho
    have hc : canParse .listP (.generic o Option.none) = true := by
      rcases listBase_cases o ho with rfl | rfl | rfl <;> rfl
    have hpre : ∀ q ∈ ([.anyP, .stringP, .uuidP, .dateP, .dateTimeP, .integerP, .numberP,
        .booleanP, .nullP, .typeVarP, .newTypeP, .constantP, .unionP] : List PTy),
        canParse q (.generic o Option.none) = false := by
      intro q hq
      rcases listBase_cases o ho with rfl | rfl | rfl <;> fin_cases hq <;> rfl
    rw [parseAnn_to_buildList fuel cfg (.generic o Option.none) .ellipsis hc hpre]
    rfl
  · intro fuel cfg o a s ho hE hs hA
    have hc : canParse .listP (.generic o (some [a])) = true := by
      rcases listBase_cases o ho with rfl | rfl | rfl <;> rfl
    have hpre : ∀ q ∈ ([.anyP, .stringP, .uuidP, .dateP, .dateTimeP, .integerP, .numberP,
        .booleanP, .nullP, .typeVarP, .newTypeP, .constantP, .unionP] : List PTy),
        canParse q (.generic o (some [a])) = false := by
      intro q hq
      rcases listBase_cases o ho with rfl | rfl | rfl <;> fin_cases hq <;> rfl
    rw [parseAnn_to_buildList fuel cfg (.generic o (some [a])) .ellipsis hc hpre]
    simp [buildListH, Desc.getArgs, parseArgsH_single _ a hE, hs,
      flattenAnyOf_single_not s hA]
  · intro fuel cfg o a m ms dt dv ho hE hs
    have hc : canParse .listP (.generic o (some [a])) = true := by
      rcases listBase_cases o ho with rfl | rfl | rfl <;> rfl
    have hpre : ∀ q ∈ ([.anyP, .stringP, .uuidP, .dateP, .dateTimeP, .integerP, .numberP,
        .booleanP, .nullP, .typeVarP, .newTypeP, .constantP, .unionP] : List PTy),
        canParse q (.generic o (some [a])) = false := by
      intro q hq
      rcases listBase_cases o ho with rfl | rfl | rfl <;> fin_cases hq <;> rfl
    rw [parseAnn_to_buildList fuel cfg (.generic o (some [a])) .ellipsis hc hpre]
    simp [buildListH, Desc.getArgs, parseArgsH_single _ a hE, hs, flattenAnyOf]

/-- C4 witness: `List[int]` resolves with `items` = the Integer node
(conjunct 3 at a concrete input), and `Collection[Union[str, int]]`
flattens the argument's `AnyOf` so that `items` is its first member, the
String node (conjunct 4 at a concrete input). -/
theorem C4_witness :
    parseAnn 2 ⟨true, "_", []⟩ (.generic .listT (some [.base .intT])) .ellipsis =
      .ok (arrayWithItems (.integerS .none .none .none .none .none Option.none Option.none
        .none .none .ellipsis))
    ∧ parseAnn 3 ⟨true, "_", []⟩ (.generic .collectionT (some [.unionD [.base .strT, .base .intT]]))
        .ellipsis =
      .ok (arrayWithItems (.stringS Option.none Option.none Option.none Option.none Option.none
        Option.none .none .none .ellipsis)) :=
  ⟨C4_list_container_resolution.2.2.1 1 ⟨true, "_", []⟩ .listT (.base .intT)
      (.integerS .none .none .none .none .none Option.none Option.none .none .none .ellipsis)
      (by decide) rfl rfl rfl,
   C4_list_container_resolution.2.2.2.1 2 ⟨true, "_", []⟩ .collectionT
      (.unionD [.base .strT, .base .intT])
      (.stringS Option.none Option.none Option.none Option.none Option.none Option.none
        .none .none .ellipsis)
      [.integerS .none .none .none .none .none Option.none Option.none .none .none .ellipsis]
      Option.none .ellipsis (by decide) rfl rfl⟩

/-- Marker predicate: is this descriptor a forward reference? -/
def Desc.isFwdMark : Desc → Bool
  | .forwardRefD _ => true
  | _ => false

/-- C6: forward-reference resolution.  Conjunct 1: a forward reference
whose name the caller-supplied `locals` table maps to a concrete (non
forward-reference) descriptor resolves exactly as that descriptor resolves
directly.  Conjunct 2: a forward reference whose name is absent from the
table resolves exactly as `typing.Any` resolves.  Conjunct 3: that `Any`
resolution is the unconstrained placeholder node (an empty
`JSONSchemaObject` with only the supplied default attached). -/
theorem C6_forward_reference_resolution :
    (∀ (fuel : Nat) (cfg : Cfg) (n : String) (d : Desc) (dflt : PyVal),
      lookupLocal cfg.locals n = some d → d.isFwdMark = false →
      parseAnn (fuel + 1) cfg (.forwardRefD n) dflt = parseAnn (fuel + 1) cfg d dflt)
    ∧ (∀ (fuel : Nat) (cfg : Cfg) (n : String) (dflt : PyVal),
      lookupLocal cfg.locals n = Option.none →
      parseAnn (fuel + 1) cfg (.forwardRefD n) dflt = parseAnn (fuel + 1) cfg (.base .anyT) dflt)
    ∧ (∀ (fuel : Nat) (cfg : Cfg) (dflt : PyVal),
      parseAnn (fuel + 1) cfg (.base .anyT) dflt =
        .ok (match dflt with
          | .ellipsis => .jso Option.none Option.none .none .ellipsis
          | v => .jso Option.none Option.none .none v)) := by
  refine ⟨?_, ?_, ?_⟩
  · intro fuel cfg n d dflt h hf
    have h1 : parseAnn (fuel + 1) cfg (.forwardRefD n) dflt =
        parseLoopH (parseAnn fuel cfg) cfg TYPES (substFwd cfg (.forwardRefD n)) dflt := rfl
    have h2 : parseAnn (fuel + 1) cfg d dflt =
        parseLoopH (parseAnn fuel cfg) cfg TYPES (substFwd cfg d) dflt := rfl
    have h3 : substFwd cfg (.forwardRefD n) = d := by simp [substFwd, h]
    have h4 : substFwd cfg d = d := by
      cases d <;> simp_all [Desc.isFwdMark, substFwd]
    rw [h1, h2, h3, h4]
  · intro fuel cfg n dflt h
    have h1 : parseAnn (fuel + 1) cfg (.forwardRefD n) dflt =
        parseLoopH (parseAnn fuel cfg) cfg TYPES (substFwd cfg (.forwardRefD n)) dflt := rfl
    have h3 : substFwd cfg (.forwardRefD n) = .base .anyT := by simp [substFwd, h]
    rw [h1, h3]
    rfl
  · intro fuel cfg dflt
    have he : eligible cfg.strict .anyP (.base .anyT) = true := by
      simp only [eligible, strictOf, Bool.or_true, Bool.and_true]
      rfl
    have h1 : parseAnn (fuel + 1) cfg (.base .anyT) dflt =
        parseLoopH (parseAnn fuel cfg) cfg TYPES (.base .anyT) dflt := rfl
    rw [h1]
    simp only [TYPES, parseLoopH, he, if_true]
    cases dflt <;> rfl

/-- C6 witness: with `locals = [("X", str)]`, the forward reference `"X"`
resolves like `str` itself (first conjunct); the unknown name `"Y"`
resolves like `typing.Any` (second conjunct), i.e. to the bare placeholder
(third conjunct). -/
theorem C6_witness :
    parseAnn 1 ⟨true, "_", [("X", .base .strT)]⟩ (.forwardRefD "X") .ellipsis =
      parseAnn 1 ⟨true, "_", [("X", .base .strT)]⟩ (.base .strT) .ellipsis
    ∧ parseAnn 1 ⟨true, "_", [("X", .base .strT)]⟩ (.forwardRefD "Y") (.int 7) =
      parseAnn 1 ⟨true, "_", [("X", .base .strT)]⟩ (.base .anyT) (.int 7)
    ∧ parseAnn 1 ⟨true, "_", [("X", .base .strT)]⟩ (.base .anyT) (.int 7) =
      .ok (.jso Option.none Option.none .none (.int 7)) :=
  ⟨C6_forward_reference_resolution.1 0 ⟨true, "_", [("X", .base .strT)]⟩ "X"
      (.base .strT) .ellipsis rfl rfl,
   C6_forward_reference_resolution.2.1 0 ⟨true, "_", [("X", .base .strT)]⟩ "Y" (.int 7) rfl,
   C6_forward_reference_resolution.2.2 0 ⟨true, "_", [("X", .base .strT)]⟩ (.int 7)⟩

/-! ### Default propagation (for C5) -/

theorem getDefault_setDefault (s : Schema) (v : PyVal) :
    (s.setDefault v).getDefault = v := by
  cases s <;> rfl

theorem getDefault_setTitle (s : Schema) (t : Option String) :
    (s.setTitle t).getDefault = s.getDefault := by
  cases s <;> rfl

theorem getDefault_setUniq (s : Schema) :
    s.setUniq.getDefault = s.getDefault := by
  cases s <;> rfl

/-- Every node a ListParser-style builder returns has an unset default. -/
theorem buildListH_getDefault (parse : Desc → PyVal → Except String Schema) (d : Desc)
    (s : Schema) (h : buildListH parse d = .ok s) : s.getDefault = .ellipsis := by
  unfold buildListH at h
  split at h
  · injection h with h; subst h; rfl
  · split at h
    · exact absurd h (by simp)
    · split at h
      · exact absurd h (by simp)
      · injection h with h; subst h; rfl

/-- Every node a matched builder returns has an unset default, provided the
recursive resolution (invoked with no default) does too. -/
theorem buildPH_getDefault (parse : Desc → PyVal → Except String Schema) (cfg : Cfg)
    (Hp : ∀ a s, parse a .ellipsis = .ok s → s.getDefault = .ellipsis) :
    ∀ (p : PTy) (d : Desc) (s : Schema),
      buildPH parse cfg p d = .ok s → s.getDefault = .ellipsis := by
  intro p d s h
  unfold buildPH at h
  split at h
  all_goals repeat (first
    | (exact buildListH_getDefault _ _ _ h)
    | (injection h with h; subst h; first | rfl | (cases p <;> rfl))
    | (rename_i s0 heq; injection h with h; subst h;
       first
         | (rw [getDefault_setTitle]; exact Hp _ _ heq)
         | (rw [getDefault_setUniq]; exact buildListH_getDefault _ _ _ heq))
    | (simp at h)
    | (split at h))

/-- After the engine scan, the produced node's default equals the supplied
one: it is attached on top of the builder's unset default when supplied,
and stays unset (equal to the `...` sentinel) otherwise; the lenient
fallback node carries the supplied default directly. -/
theorem parseLoopH_getDefault (parse : Desc → PyVal → Except String Schema) (cfg : Cfg)
    (Hp : ∀ a s, parse a .ellipsis = .ok s → s.getDefault = .ellipsis) :
    ∀ (l : List PTy) (d : Desc) (dflt : PyVal) (s : Schema),
      parseLoopH parse cfg l d dflt = .ok s → s.getDefault = dflt := by
  intro l
  induction l with
  | nil =>
    intro d dflt s h
    unfold parseLoopH at h
    split at h
    · exact absurd h (by simp)
    · injection h with h; subst h; rfl
  | cons p rest ih =>
    intro d dflt s h
    unfold parseLoopH at h
    split at h
    · cases hb : buildPH parse cfg p d with
      | error e => rw [hb] at h; exact absurd h (by simp)
      | ok s0 =>
        rw [hb] at h
        have h0 := buildPH_getDefault parse cfg Hp p d s0 hb
        cases dflt with
        | ellipsis => injection h with h; subst h; exact h0
        | none => injection h with h; subst h; exact getDefault_setDefault s0 _
        | bool b => injection h with h; subst h; exact getDefault_setDefault s0 _
        | int n => injection h with h; subst h; exact getDefault_setDefault s0 _
        | str t => injection h with h; subst h; exact getDefault_setDefault s0 _
        | list xs => injection h with h; subst h; exact getDefault_setDefault s0 _
        | dict xs => injection h with h; subst h; exact getDefault_setDefault s0 _
    · exact ih d dflt s h

/-- `parse_annotation` always returns a node whose (three-state) default is
exactly the supplied default. -/
theorem parseAnn_getDefault :
    ∀ (fuel : Nat) (cfg : Cfg) (d : Desc) (dflt : PyVal) (s : Schema),
      parseAnn fuel cfg d dflt = .ok s → s.getDefault = dflt := by
  intro fuel
  induction fuel with
  | zero => intro cfg d dflt s h; exact absurd h (by simp [parseAnn])
  | succ fuel ih =>
    intro cfg d dflt s h
    exact parseLoopH_getDefault (parseAnn fuel cfg) cfg
      (fun a s' h' => ih cfg a .ellipsis s' h') TYPES (substFwd cfg d) dflt s h

/-- The free-function TypeVar parameter path never succeeds (parsers.py
lines 130 and 140: both strict and lenient modes end in an exception). -/
theorem bareTypeVarParam_not_ok (fuel : Nat) (cfg : Cfg) (bd : Option Desc) (s : Schema) :
    bareTypeVarParam fuel cfg bd ≠ .ok s := by
  intro h
  unfold bareTypeVarParam at h
  cases bd with
  | none => cases hs : cfg.strict <;> simp [hs] at h
  | some b =>
    cases hp : parseAnn fuel cfg b .ellipsis with
    | error e => simp [hp] at h
    | ok s0 => cases hs : cfg.strict <;> simp [hp, hs] at h

/-- A successfully resolved parameter node carries the supplied default. -/
theorem paramNode_getDefault (fuel : Nat) (cfg : Cfg) (cls : Option PyClass) (p : Param)
    (dflt : PyVal) (s : Schema) (h : paramNode fuel cfg cls p dflt = .ok s) :
    s.getDefault = dflt := by
  unfold paramNode at h
  split at h
  · split at h
    · exact absurd h (by simp)
    · exact parseAnn_getDefault fuel cfg _ dflt s h
  · exact absurd h (bareTypeVarParam_not_ok fuel cfg _ s)
  · exact parseAnn_getDefault fuel cfg _ dflt s h

/-- The parameters that `parse_function` models (spec-side mirror of the
loop's skip rules, used to state C5): everything except private-prefixed
names, the receiver, and variadic parameters. -/
def modeledParams (cfg : Cfg) (cls : Option PyClass) (isStatic : Bool) :
    Nat → List Param → List Param
  | _, [] => []
  | n, p :: rest =>
    if cfg.privArgPre ≠ "" && pyStartsWith p.name cfg.privArgPre then
      modeledParams cfg cls isStatic (n + 1) rest
    else if cls.isSome && n == 0 && !isStatic then
      modeledParams cfg cls isStatic (n + 1) rest
    else if p.kind = .varPositional then
      modeledParams cfg cls isStatic (n + 1) rest
    else if p.kind = .varKeyword then
      modeledParams cfg cls isStatic (n + 1) rest
    else
      p :: modeledParams cfg cls isStatic (n + 1) rest

/-- The parameter loop's output, characterized against the modeled
parameters: `required` collects (in order) exactly the names of modeled
parameters without a declared default, and the property list pairs each
modeled parameter with a node whose default is the declared default (the
`...` sentinel when there is none). -/
theorem processParams_spec (fuel : Nat) (cfg : Cfg) (cls : Option PyClass) (st : Bool) :
    ∀ (ps : List Param) (n : Nat) (props : List (String × Schema)) (rq : List String) (ap : Bool),
      processParams fuel cfg cls st n ps = .ok (props, rq, ap) →
      rq = (modeledParams cfg cls st n ps).filterMap
          (fun p => match p.dflt with | Option.none => some p.name | some _ => Option.none)
      ∧ List.Forall₂ (fun (pr : String × Schema) (p : Param) =>
          pr.1 = p.name ∧ pr.2.getDefault = declaredDefault p)
          props (modeledParams cfg cls st n ps) := by
  intro ps
  induction ps with
  | nil =>
    intro n props rq ap h
    unfold processParams at h
    injection h with h
    injection h with h1 h
    injection h with h2 h3
    subst h1; subst h2
    exact ⟨rfl, List.Forall₂.nil⟩
  | cons p rest ih =>
    intro n props rq ap h
    unfold processParams at h
    unfold modeledParams
    split at h
    next hc1 =>
      rw [if_pos hc1]
      exact ih (n + 1) props rq ap h
    next hc1 =>
      rw [if_neg hc1]
      split at h
      next hc2 =>
        rw [if_pos hc2]
        exact ih (n + 1) props rq ap h
      next hc2 =>
        rw [if_neg hc2]
        split at h
        next hc3 =>
          rw [if_pos hc3]
          exact ih (n + 1) props rq ap h
        next hc3 =>
          rw [if_neg hc3]
          split at h
          next hc4 =>
            rw [if_pos hc4]
            cases hr : processParams fuel cfg cls st (n + 1) rest with
            | error e => rw [hr] at h; exact absurd h (by simp)
            | ok t =>
              obtain ⟨ps', rq', ap'⟩ := t
              rw [hr] at h
              injection h with h
              injection h with h1 h
              injection h with h2 h3
              subst h1; subst h2
              exact ih (n + 1) ps' rq' ap' hr
          next hc4 =>
            rw [if_neg hc4]
            split at h
            next hc5 => exact absurd h (by simp)
            next hc5 =>
              cases hn : paramNode fuel cfg cls p (declaredDefault p) with
              | error e => rw [hn] at h; exact absurd h (by simp)
              | ok s =>
                rw [hn] at h
                cases hr : processParams fuel cfg cls st (n + 1) rest with
                | error e => rw [hr] at h; exact absurd h (by simp)
                | ok t =>
                  obtain ⟨ps', rq', ap'⟩ := t
                  rw [hr] at h
                  injection h with h
                  injection h with h1 h
                  injection h with h2 h3
                  subst h1; subst h2
                  obtain ⟨ihr, ihf⟩ := ih (n + 1) ps' rq' ap' hr
                  constructor
                  · cases hd : p.dflt with
                    | none => simp [List.filterMap_cons, hd, ihr]
                    | some v => simp [List.filterMap_cons, hd, ihr]
                  · exact List.Forall₂.cons
                      ⟨rfl, paramNode_getDefault fuel cfg cls p (declaredDefault p) s hn⟩ ihf

/-- C5: `parse_function` adds a modeled parameter's name to `required`
exactly when it has no declared default, and otherwise the parameter's node
carries the declared default (internally the no-default marker is the
Ellipsis sentinel — `declaredDefault` — so a default of `None` is a real
value, distinguished from no default).  Conjunct 1: whenever the parameter
loop succeeds with a nonempty property list, the input Object is built from
exactly that property list, `required` list and additional-properties flag;
`required` is (in order) the names of the modeled parameters without
defaults, and each property node's default equals its parameter's declared
default.  Conjunct 2: the scenario — `f(value: str)` with no return
annotation yields an input Object requiring `value` and an absent (None)
output. -/
theorem C5_required_and_defaults :
    (∀ (fuel : Nat) (cfg : Cfg) (f : PyFunc) (cls : Option PyClass) (fa : FunctionAnn)
        (props : List (String × Schema)) (rq : List String) (ap : Bool),
      parseFunction fuel cfg f cls = .ok fa →
      processParams fuel cfg cls f.isStatic 0 f.params = .ok (props, rq, ap) →
      (props ≠ [] → fa.kwargs = some (.objectS (some props) Option.none (some ap)
        Option.none Option.none (some rq) Option.none Option.none .none .none .ellipsis))
      ∧ rq = (modeledParams cfg cls f.isStatic 0 f.params).filterMap
          (fun p => match p.dflt with | Option.none => some p.name | some _ => Option.none)
      ∧ List.Forall₂ (fun (pr : String × Schema) (p : Param) =>
          pr.1 = p.name ∧ pr.2.getDefault = declaredDefault p)
          props (modeledParams cfg cls f.isStatic 0 f.params))
    ∧ parseFunction 2 ⟨true, "_", []⟩
        ⟨[⟨"value", .positionalOrKeyword, .base .strT, Option.none⟩], Option.none, false⟩
        Option.none =
      .ok ⟨some (.objectS
        (some [("value", .stringS Option.none Option.none Option.none Option.none
          Option.none Option.none .none .none .ellipsis)])
        Option.none (some false) Option.none Option.none (some ["value"])
        Option.none Option.none .none .none .ellipsis), Option.none⟩ := by
  refine ⟨?_, rfl⟩
  intro fuel cfg f cls fa props rq ap hf hp
  obtain ⟨h1, h2⟩ := processParams_spec fuel cfg cls f.isStatic f.params 0 props rq ap hp
  refine ⟨?_, h1, h2⟩
  intro hne
  unfold parseFunction at hf
  rw [hp] at hf
  cases props with
  | nil => exact absurd rfl hne
  | cons pr ps' =>
    cases hret : f.returns with
    | none =>
      rw [hret] at hf
      injection hf with hf
      subst hf
      rfl
    | some r =>
      rw [hret] at hf
      have hf2 : (match parseAnn fuel cfg r .ellipsis with
          | .error e => (.error e : Except String FunctionAnn)
          | .ok s => .ok ⟨some (.objectS (some (pr :: ps')) Option.none (some ap)
              Option.none Option.none (some rq) Option.none Option.none .none .none .ellipsis),
              some s⟩) = .ok fa := hf
      cases hrr : parseAnn fuel cfg r .ellipsis with
      | error e => rw [hrr] at hf2; exact absurd hf2 (by simp)
      | ok sr =>
        rw [hrr] at hf2
        injection hf2 with hf2
        subst hf2
        rfl

/-- C5 witness: `f(value: str, count: int = 2)` — the loop models both
parameters, requires only `value`, and the `count` node carries default 2
(while `value`'s stays the unset sentinel). -/
theorem C5_witness :
    (([("value", Schema.stringS Option.none Option.none Option.none Option.none Option.none
        Option.none .none .none .ellipsis),
       ("count", Schema.integerS .none .none .none .none .none Option.none Option.none
        .none .none (.int 2))] : List (String × Schema)) ≠ [] →
      (⟨some (.objectS (some [("value", Schema.stringS Option.none Option.none Option.none
          Option.none Option.none Option.none .none .none .ellipsis),
         ("count", Schema.integerS .none .none .none .none .none Option.none Option.none
          .none .none (.int 2))]) Option.none (some false) Option.none Option.none
          (some ["value"]) Option.none Option.none .none .none .ellipsis),
        Option.none⟩ : FunctionAnn).kwargs =
      some (.objectS (some [("value", Schema.stringS Option.none Option.none Option.none
          Option.none Option.none Option.none .none .none .ellipsis),
         ("count", Schema.integerS .none .none .none .none .none Option.none Option.none
          .none .none (.int 2))]) Option.none (some false) Option.none Option.none
          (some ["value"]) Option.none Option.none .none .none .ellipsis))
    ∧ ["value"] = List.filterMap
        (fun (p : Param) => match p.dflt with | Option.none => some p.name | some _ => Option.none)
        ([⟨"value", .positionalOrKeyword, .base .strT, Option.none⟩,
          ⟨"count", .positionalOrKeyword, .base .intT, some (.int 2)⟩] : List Param)
    ∧ List.Forall₂ (fun (pr : String × Schema) (p : Param) =>
        pr.1 = p.name ∧ pr.2.getDefault = declaredDefault p)
        [("value", Schema.stringS Option.none Option.none Option.none Option.none Option.none
          Option.none .none .none .ellipsis),
         ("count", Schema.integerS .none .none .none .none .none Option.none Option.none
          .none .none (.int 2))]
        ([⟨"value", .positionalOrKeyword, .base .strT, Option.none⟩,
          ⟨"count", .positionalOrKeyword, .base .intT, some (.int 2)⟩] : List Param) :=
  C5_required_and_defaults.1 2 ⟨true, "_", []⟩
    ⟨[⟨"value", .positionalOrKeyword, .base .strT, Option.none⟩,
      ⟨"count", .positionalOrKeyword, .base .intT, some (.int 2)⟩], Option.none, false⟩
    Option.none
    ⟨some (.objectS (some [("value", Schema.stringS Option.none Option.none Option.none
        Option.none Option.none Option.none .none .none .ellipsis),
       ("count", Schema.integerS .none .none .none .none .none Option.none Option.none
        .none .none (.int 2))]) Option.none (some false) Option.none Option.none
        (some ["value"]) Option.none Option.none .none .none .ellipsis),
      Option.none⟩
    [("value", Schema.stringS Option.none Option.none Option.none Option.none Option.none
      Option.none .none .none .ellipsis),
     ("count", Schema.integerS .none .none .none .none .none Option.none Option.none
      .none .none (.int 2))]
    ["value"] false rfl rfl

/-- Characterization of the `parse_class` attribute loop: an entry of the
produced map comes from exactly one plain-function, non-private attribute
of the scanned list and equals `parse_function` of it (with the class as
owner); conversely every such attribute yields an entry. -/
theorem parseClassGo_mem (fuel : Nat) (cfg : Cfg) (cls : PyClass) :
    ∀ (attrs : List (String × ClassAttr)) (m : List (String × FunctionAnn)),
      parseClassGo fuel cfg cls attrs = .ok m →
      (∀ nm fa, (nm, fa) ∈ m →
        ∃ f, (nm, ClassAttr.funcA f) ∈ attrs
          ∧ (cfg.privArgPre ≠ "" && pyStartsWith nm cfg.privArgPre) = false
          ∧ parseFunction fuel cfg f (some cls) = .ok fa)
      ∧ (∀ nm f, (nm, ClassAttr.funcA f) ∈ attrs →
          (cfg.privArgPre ≠ "" && pyStartsWith nm cfg.privArgPre) = false →
          ∃ fa, parseFunction fuel cfg f (some cls) = .ok fa ∧ (nm, fa) ∈ m) := by
  intro attrs
  induction attrs with
  | nil =>
    intro m h
    unfold parseClassGo at h
    injection h with h
    subst h
    exact ⟨fun nm fa hm => absurd hm (List.not_mem_nil _),
           fun nm f hm => absurd hm (List.not_mem_nil _)⟩
  | cons a0 rest ih =>
    obtain ⟨nm0, at0⟩ := a0
    intro m h
    unfold parseClassGo at h
    split at h
    next hc =>
      obtain ⟨ihf, ihb⟩ := ih m h
      constructor
      · intro nm fa hm
        obtain ⟨f, hmem, hpriv, hpf⟩ := ihf nm fa hm
        exact ⟨f, List.mem_cons_of_mem _ hmem, hpriv, hpf⟩
      · intro nm f hmem hpriv
        rcases List.mem_cons.mp hmem with heq | htail
        · injection heq with h1 h2
          subst h1
          rw [hpriv] at hc
          exact absurd hc (by decide)
        · exact ihb nm f htail hpriv
    next hc =>
      cases at0 with
      | funcA f0 =>
        have h2 : (match parseFunction fuel cfg f0 (some cls) with
            | .error e => (.error e : Except String (List (String × FunctionAnn)))
            | .ok fa =>
              match parseClassGo fuel cfg cls rest with
              | .error e => .error e
              | .ok m2 => .ok ((nm0, fa) :: m2)) = .ok m := h
        clear h
        cases hpf : parseFunction fuel cfg f0 (some cls) with
        | error e => rw [hpf] at h2; exact absurd h2 (by simp)
        | ok fa0 =>
          rw [hpf] at h2
          cases hr : parseClassGo fuel cfg cls rest with
          | error e => rw [hr] at h2; exact absurd h2 (by simp)
          | ok m' =>
            rw [hr] at h2
            injection h2 with h2
            subst h2
            obtain ⟨ihf, ihb⟩ := ih m' hr
            constructor
            · intro nm fa hm
              rcases List.mem_cons.mp hm with heq | htail
              · injection heq with h1 h2
                subst h1; subst h2
                exact ⟨f0, List.mem_cons_self _ _,
                  by simpa using hc, hpf⟩
              · obtain ⟨f, hmem, hpriv, hpf'⟩ := ihf nm fa htail
                exact ⟨f, List.mem_cons_of_mem _ hmem, hpriv, hpf'⟩
            · intro nm f hmem hpriv
              rcases List.mem_cons.mp hmem with heq | htail
              · injection heq with h1 h2
                injection h2 with h2
                subst h1; subst h2
                exact ⟨fa0, hpf, List.mem_cons_self _ _⟩
              · obtain ⟨fa, hpf', hm⟩ := ihb nm f htail hpriv
                exact ⟨fa, hpf', List.mem_cons_of_mem _ hm⟩
      | staticA f0 =>
        obtain ⟨ihf, ihb⟩ := ih m h
        constructor
        · intro nm fa hm
          obtain ⟨f, hmem, hpriv, hpf⟩ := ihf nm fa hm
          exact ⟨f, List.mem_cons_of_mem _ hmem, hpriv, hpf⟩
        · intro nm f hmem hpriv
          rcases List.mem_cons.mp hmem with heq | htail
          · injection heq with h1 h2
            exact absurd h2 (by simp)
          · exact ihb nm f htail hpriv
      | otherA =>
        obtain ⟨ihf, ihb⟩ := ih m h
        constructor
        · intro nm fa hm
          obtain ⟨f, hmem, hpriv, hpf⟩ := ihf nm fa hm
          exact ⟨f, List.mem_cons_of_mem _ hmem, hpriv, hpf⟩
        · intro nm f hmem hpriv
          rcases List.mem_cons.mp hmem with heq | htail
          · injection heq with h1 h2
            exact absurd h2 (by simp)
          · exact ihb nm f htail hpriv

/-- C9: `parse_class` iterates `vars(cls)` — the class's own body
namespace — so its map has entries only for non-private plain-function
attributes of the class body, each equal to `parse_function` of that
function with the class as owner (conjunct 1); every such attribute
produces an entry (conjunct 2); and a name with no plain-function binding
in the class body — in particular a method only inherited from a base
class — never appears in the map (conjunct 3). -/
theorem C9_parse_class_own_functions :
    (∀ (fuel : Nat) (cfg : Cfg) (cls : PyClass) (m : List (String × FunctionAnn)),
      parseClass fuel cfg cls = .ok m →
      ∀ nm fa, (nm, fa) ∈ m →
        ∃ f, (nm, ClassAttr.funcA f) ∈ cls.own
          ∧ (cfg.privArgPre ≠ "" && pyStartsWith nm cfg.privArgPre) = false
          ∧ parseFunction fuel cfg f (some cls) = .ok fa)
    ∧ (∀ (fuel : Nat) (cfg : Cfg) (cls : PyClass) (m : List (String × FunctionAnn)),
      parseClass fuel cfg cls = .ok m →
      ∀ nm f, (nm, ClassAttr.funcA f) ∈ cls.own →
        (cfg.privArgPre ≠ "" && pyStartsWith nm cfg.privArgPre) = false →
        ∃ fa, parseFunction fuel cfg f (some cls) = .ok fa ∧ (nm, fa) ∈ m)
    ∧ (∀ (fuel : Nat) (cfg : Cfg) (cls : PyClass) (m : List (String × FunctionAnn)),
      parseClass fuel cfg cls = .ok m →
      ∀ nm, (∀ f, (nm, ClassAttr.funcA f) ∉ cls.own) → ∀ fa, (nm, fa) ∉ m) := by
  refine ⟨?_, ?_, ?_⟩
  · intro fuel cfg cls m h
    exact (parseClassGo_mem fuel cfg cls cls.own m h).1
  · intro fuel cfg cls m h
    exact (parseClassGo_mem fuel cfg cls cls.own m h).2
  · intro fuel cfg cls m h nm hno fa hm
    obtain ⟨f, hmem, _, _⟩ := (parseClassGo_mem fuel cfg cls cls.own m h).1 nm fa hm
    exact hno f hmem

/-- C9 witness: a class whose body holds a method `test`, a private method
`_hidden` and a non-function attribute `data`, with a method `base_m` only
inherited from a base: the produced map is `[("test", ...)]`; the `test`
entry traces back to the body's function and equals its `parse_function`
(conjunct 1 applied), and `base_m` cannot appear (conjunct 3 applied). -/
theorem C9_witness :
    (∃ f, ("test", ClassAttr.funcA f) ∈
        ([("test", ClassAttr.funcA ⟨[⟨"self", .positionalOrKeyword, .emptyD, Option.none⟩,
            ⟨"value", .positionalOrKeyword, .base .strT, Option.none⟩],
            some (.base .intT), false⟩),
          ("_hidden", ClassAttr.funcA ⟨[], Option.none, false⟩),
          ("data", ClassAttr.otherA)] : List (String × ClassAttr))
      ∧ (("_" : String) ≠ "" && pyStartsWith "test" "_") = false
      ∧ parseFunction 2 ⟨true, "_", []⟩ f
          (some ⟨[("test", ClassAttr.funcA ⟨[⟨"self", .positionalOrKeyword, .emptyD, Option.none⟩,
              ⟨"value", .positionalOrKeyword, .base .strT, Option.none⟩],
              some (.base .intT), false⟩),
            ("_hidden", ClassAttr.funcA ⟨[], Option.none, false⟩),
            ("data", ClassAttr.otherA)],
            [("base_m", ClassAttr.funcA ⟨[], Option.none, false⟩)], []⟩) =
        .ok ⟨some (.objectS (some [("value", .stringS Option.none Option.none Option.none
            Option.none Option.none Option.none .none .none .ellipsis)])
          Option.none (some false) Option.none Option.none (some ["value"])
          Option.none Option.none .none .none .ellipsis),
          some (.integerS .none .none .none .none .none Option.none Option.none
            .none .none .ellipsis)⟩)
    ∧ (∀ fa, ("base_m", fa) ∉
        ([("test", ⟨some (.objectS (some [("value", .stringS Option.none Option.none Option.none
            Option.none Option.none Option.none .none .none .ellipsis)])
          Option.none (some false) Option.none Option.none (some ["value"])
          Option.none Option.none .none .none .ellipsis),
          some (.integerS .none .none .none .none .none Option.none Option.none
            .none .none .ellipsis)⟩)] : List (String × FunctionAnn))) :=
  ⟨C9_parse_class_own_functions.1 2 ⟨true, "_", []⟩
      ⟨[("test", ClassAttr.funcA ⟨[⟨"self", .positionalOrKeyword, .emptyD, Option.none⟩,
          ⟨"value", .positionalOrKeyword, .base .strT, Option.none⟩],
          some (.base .intT), false⟩),
        ("_hidden", ClassAttr.funcA ⟨[], Option.none, false⟩),
        ("data", ClassAttr.otherA)],
        [("base_m", ClassAttr.funcA ⟨[], Option.none, false⟩)], []⟩
      [("test", ⟨some (.objectS (some [("value", .stringS Option.none Option.none Option.none
          Option.none Option.none Option.none .none .none .ellipsis)])
        Option.none (some false) Option.none Option.none (some ["value"])
        Option.none Option.none .none .none .ellipsis),
        some (.integerS .none .none .none .none .none Option.none Option.none
          .none .none .ellipsis)⟩)]
      rfl "test" _ (List.mem_singleton.mpr rfl),
   C9_parse_class_own_functions.2.2 2 ⟨true, "_", []⟩
      ⟨[("test", ClassAttr.funcA ⟨[⟨"self", .positionalOrKeyword, .emptyD, Option.none⟩,
          ⟨"value", .positionalOrKeyword, .base .strT, Option.none⟩],
          some (.base .intT), false⟩),
        ("_hidden", ClassAttr.funcA ⟨[], Option.none, false⟩),
        ("data", ClassAttr.otherA)],
        [("base_m", ClassAttr.funcA ⟨[], Option.none, false⟩)], []⟩
      [("test", ⟨some (.objectS (some [("value", .stringS Option.none Option.none Option.none
          Option.none Option.none Option.none .none .none .ellipsis)])
        Option.none (some false) Option.none Option.none (some ["value"])
        Option.none Option.none .none .none .ellipsis),
        some (.integerS .none .none .none .none .none Option.none Option.none
          .none .none .ellipsis)⟩)]
      rfl "base_m" (by intro f hmem; simp at hmem)⟩

/-- The loop's skip conditions for one parameter at `enumerate` index `n`
(spec-side mirror, used to state C10): private prefix, receiver position,
variadic-positional, or variadic-keyword. -/
def skippedPar (cfg : Cfg) (cls : Option PyClass) (st : Bool) (n : Nat) (p : Param) : Bool :=
  (cfg.privArgPre ≠ "" && pyStartsWith p.name cfg.privArgPre)
  || (cls.isSome && n == 0 && !st)
  || (p.kind = PKind.varPositional)
  || (p.kind = PKind.varKeyword)

/-- All parameters from index `n` on are skipped. -/
def allSkipped (cfg : Cfg) (cls : Option PyClass) (st : Bool) : Nat → List Param → Bool
  | _, [] => true
  | n, p :: rest => skippedPar cfg cls st n p && allSkipped cfg cls st (n + 1) rest

theorem processParams_all_skipped (fuel : Nat) (cfg : Cfg) (cls : Option PyClass) (st : Bool) :
    ∀ (ps : List Param) (n : Nat), allSkipped cfg cls st n ps = true →
      ∃ ap, processParams fuel cfg cls st n ps = .ok ([], [], ap) := by
  intro ps
  induction ps with
  | nil => intro n _; exact ⟨false, rfl⟩
  | cons p rest ih =>
    intro n h
    unfold allSkipped at h
    rw [Bool.and_eq_true] at h
    obtain ⟨hp, hrest⟩ := h
    obtain ⟨ap, hr⟩ := ih (n + 1) hrest
    unfold skippedPar at hp
    unfold processParams
    by_cases h1 : (cfg.privArgPre ≠ "" && pyStartsWith p.name cfg.privArgPre) = true
    · rw [if_pos h1]; exact ⟨ap, hr⟩
    · rw [if_neg h1]
      by_cases h2 : (cls.isSome && n == 0 && !st) = true
      · rw [if_pos h2]; exact ⟨ap, hr⟩
      · rw [if_neg h2]
        simp only [Bool.or_eq_true] at hp
        rcases hp with ((h1' | h2') | h3) | h4
        · exact absurd h1' h1
        · exact absurd h2' h2
        · have h3' : p.kind = .varPositional := of_decide_eq_true h3
          rw [if_pos h3']
          exact ⟨ap, hr⟩
        · have h4' : p.kind = .varKeyword := of_decide_eq_true h4
          rw [if_neg (by simp [h4']), if_pos h4', hr]
          exact ⟨true, rfl⟩

/-- C10: when every parameter of a callable is skipped by the loop (for
example a callable whose only parameter is a variadic-keyword `**kwargs`
catch-all, or a bound method with only the receiver), the parameter map
stays empty, so `parse_function` produces no Object node at all:
`kwargs` is `None` (conjunct 2), and in particular the
`additionalProperties = true` effect of a variadic-keyword parameter is
silently lost (the loop still returns with the flag set, conjunct 1, but
no node carries it). -/
theorem C10_all_params_skipped :
    (∀ (fuel : Nat) (cfg : Cfg) (cls : Option PyClass) (st : Bool) (ps : List Param) (n : Nat),
      allSkipped cfg cls st n ps = true →
      ∃ ap, processParams fuel cfg cls st n ps = .ok ([], [], ap))
    ∧ (∀ (fuel : Nat) (cfg : Cfg) (f : PyFunc) (cls : Option PyClass) (fa : FunctionAnn),
      allSkipped cfg cls f.isStatic 0 f.params = true →
      parseFunction fuel cfg f cls = .ok fa → fa.kwargs = Option.none) := by
  refine ⟨fun fuel cfg cls st ps n h => processParams_all_skipped fuel cfg cls st ps n h, ?_⟩
  intro fuel cfg f cls fa hsk hf
  obtain ⟨ap, hr⟩ := processParams_all_skipped fuel cfg cls f.isStatic f.params 0 hsk
  unfold parseFunction at hf
  rw [hr] at hf
  cases hret : f.returns with
  | none =>
    rw [hret] at hf
    injection hf with hf
    subst hf
    rfl
  | some r =>
    rw [hret] at hf
    have hf2 : (match parseAnn fuel cfg r .ellipsis with
        | .error e => (.error e : Except String FunctionAnn)
        | .ok s => .ok ⟨Option.none, some s⟩) = .ok fa := hf
    cases hrr : parseAnn fuel cfg r .ellipsis with
    | error e => rw [hrr] at hf2; exact absurd hf2 (by simp)
    | ok sr =>
      rw [hrr] at hf2
      injection hf2 with hf2
      subst hf2
      rfl

/-- C10 witness: `f(**kwargs)` (variadic-keyword only) and a bound method
with only the receiver both come back with `kwargs = None`. -/
theorem C10_witness :
    (⟨Option.none, Option.none⟩ : FunctionAnn).kwargs = Option.none
    ∧ (⟨Option.none, Option.none⟩ : FunctionAnn).kwargs = Option.none :=
  ⟨C10_all_params_skipped.2 1 ⟨true, "_", []⟩
      ⟨[⟨"kwargs", .varKeyword, .emptyD, Option.none⟩], Option.none, false⟩
      Option.none ⟨Option.none, Option.none⟩ rfl rfl,
   C10_all_params_skipped.2 1 ⟨true, "_", []⟩
      ⟨[⟨"self", .positionalOrKeyword, .emptyD, Option.none⟩], Option.none, false⟩
      (some ⟨[], [], []⟩) ⟨Option.none, Option.none⟩ rfl rfl⟩
